import Mathlib

/-!
Verification development for the darksky-pandas client
(`darksky_pandas/client.py`): a shallow embedding of its data-reshaping
pipeline — JSON forecast records into time-indexed tables — together with
proofs about the embedded operations.

Modelling conventions:
* JSON numbers are exact rationals (`ℚ`); timestamps are epoch seconds.
* A pandas `DataFrame` is a `Frame`: an index of instants, the timezone the
  index is localized to (`none` = naive), and named columns of optional
  cells (`none` = `NaN`/missing).
* Fallible pandas operations return `Option`/`Except`; `none`/`error`
  models a raised exception.
* The external timezone database (pytz) enters as a parameter
  `tzdb : String → Option TZ`; the external HTTP transport enters as a
  parameter `fetch : ℤ → Except String Record` keyed by the requested day,
  and the requests actually issued are threaded as an explicit list.
-/

set_option maxRecDepth 20000

namespace Darksky

/- Batteries marks the rational-number operations `@[irreducible]`; concrete
evaluation of the embedded pipeline (for witnesses and counterexamples by
`rfl`/`decide`) needs them to unfold. -/
attribute [local semireducible] Rat.add Rat.mul Rat.sub Rat.inv

/-- JSON values as produced by the weather API: null, numbers (modelled as
exact rationals), strings, objects and arrays. -/
inductive Value : Type where
  | null : Value
  | num (q : ℚ) : Value
  | str (s : String) : Value
  | obj (fields : List (String × Value)) : Value
  | arr (elems : List Value) : Value

/-- A flat JSON record (one element of a `data` block, or a whole forecast
response): an association list of field names to values. -/
abbrev Record := List (String × Value)

/-- The cell a record contributes to a column of `pd.DataFrame(list-of-dicts)`:
an absent key and a JSON `null` value both become a missing cell (`NaN`). -/
def cellOf (r : Record) (k : String) : Option Value :=
  match List.lookup k r with
  | some Value.null => none
  | some v => some v
  | none => none

/-- Append a key if it is not already present (keeps first-appearance order). -/
def insertKey (ks : List String) (k : String) : List String :=
  if k ∈ ks then ks else ks ++ [k]

/-- Accumulate the keys of one record onto an already collected key list. -/
def recordKeys (ks : List String) (r : Record) : List String :=
  r.foldl (fun a kv => insertKey a kv.1) ks

/-- Column set of `pd.DataFrame(list-of-dicts)`: the union of the records'
keys, in first-appearance order. -/
def unionKeys (rs : List Record) : List String :=
  rs.foldl recordKeys []

/-- Map a fallible function over a list, failing as a whole on the first
failure (the `Option`-monad `mapM`, written out for easy induction). -/
def mapOpt (f : α → Option β) : List α → Option (List β)
  | [] => some []
  | a :: l =>
    match f a, mapOpt f l with
    | some b, some bs => some (b :: bs)
    | _, _ => none

/-- A timezone: the relevant fragment of the external tz database, as the
zone's UTC offset (seconds east of UTC) at a given UTC instant. -/
structure TZ where
  offset : ℚ → ℤ

/-- The UTC zone. -/
def utcTZ : TZ := ⟨fun _ => 0⟩

/-- A fixed-offset zone (exact for any real zone on a window with no DST
transition). -/
def constTZ (o : ℤ) : TZ := ⟨fun _ => o⟩

/-- A pandas `DataFrame` with a `DatetimeIndex`, column-major: the index is
the list of UTC instants in epoch seconds, `tz` is the timezone the index is
localized to (`none` models a naive index), and each column is a name paired
with one optional cell per row. -/
structure Frame where
  index : List ℚ
  tz : Option TZ
  cols : List (String × List (Option Value))

/-- The column names of a frame, in order. -/
def colNames (f : Frame) : List String := f.cols.map Prod.fst

/-- The cell of column `k` at row `i` (missing when the column or cell is
absent). -/
def Frame.cell (f : Frame) (k : String) (i : ℕ) : Option Value :=
  match List.lookup k f.cols with
  | some cs => cs.getD i none
  | none => none

/-- A JSON value as a number, as the arithmetic inside pandas/numpy needs it. -/
def asNum : Value → Option ℚ
  | Value.num q => some q
  | _ => none

/-- The parsed `time` column of a block: every record must carry a numeric
`time` (epoch seconds); the API's blocks always do, and a missing or
non-numeric `time` is modelled as a conversion error. -/
def blockTimes (d : List Record) : Option (List ℚ) :=
  mapOpt (fun r => (cellOf r "time").bind asNum) d

/-- Shallow embedding of `datablock_to_dataframe`: build a frame from the
records (columns are the union of the records' keys), parse the `time`
column (`pd.to_datetime(..., unit='s', utc=True)`) into a UTC-aware index
and set it as the index (dropping the column).  A block with no `time`
column — in particular the empty block, since `pd.DataFrame([])` has no
columns — raises a `KeyError`. -/
def datablock_to_dataframe (d : List Record) : Option Frame :=
  if "time" ∈ unionKeys d then
    match blockTimes d with
    | some times =>
        some { index := times, tz := some utcTZ,
               cols := ((unionKeys d).filter (fun k => k ≠ "time")).map
                 (fun k => (k, d.map (fun r => cellOf r k))) }
    | none => none
  else none

/-- Positions of all occurrences of the instant `t` in an index.  Pandas
joins on the index are many-to-many: every matching pair of rows joins. -/
def matchPositions (t : ℚ) : List ℚ → List ℕ
  | [] => []
  | x :: xs => (if x = t then [0] else []) ++ (matchPositions t xs).map Nat.succ

/-- The first position of instant `t` in an index, if any. -/
def idxOf? (t : ℚ) : List ℚ → Option ℕ
  | [] => none
  | x :: xs => if x = t then some 0 else (idxOf? t xs).map Nat.succ

/-- The output row plan of a left join on the index: each left row paired
with every matching right row position (or with no right position, keeping
missing cells, when there is no match). -/
def joinPositions (l r : Frame) : List (ℕ × Option ℕ) :=
  (List.range l.index.length).flatMap (fun i =>
    if (matchPositions (l.index.getD i 0) r.index).isEmpty
    then [(i, (none : Option ℕ))]
    else (matchPositions (l.index.getD i 0) r.index).map (fun j => (i, some j)))

/-- The body of a left join on the index, following the row plan. -/
def joinRaw (l r : Frame) : Frame :=
  { index := (joinPositions l r).map (fun p => l.index.getD p.1 0),
    tz := l.tz,
    cols := l.cols.map (fun c => (c.1, (joinPositions l r).map
        (fun p => c.2.getD p.1 none)))
      ++ r.cols.map (fun c => (c.1, (joinPositions l r).map (fun p =>
           match p.2 with
           | some j => c.2.getD j none
           | none => none))) }

/-- Shallow embedding of `DataFrame.join` (left join on the index): pandas
raises when the frames share a column name and no suffix is given. -/
def joinFrames (l r : Frame) : Option Frame :=
  if (colNames l).any (fun k => (colNames r).contains k) then none
  else some (joinRaw l r)

/-- Python `str.title` restricted to ASCII: the first letter of every
alphabetic run is uppercased, the following letters lowercased. -/
def pyTitle (s : String) : String :=
  String.mk ((s.data.foldl
    (fun (st : List Char × Bool) c =>
      if c.isAlpha then
        (st.1 ++ [if st.2 then c.toLower else c.toUpper], true)
      else (st.1 ++ [c], false))
    ([], false)).1)

/-- Python `%` on numbers (result has the divisor's sign), used for the
azimuth rotation `(x + 90) % 360`. -/
def qmod (a b : ℚ) : ℚ := a - b * (⌊a / b⌋ : ℚ)

/-- The non-missing cells of the `solar` column paired with their row
instants: `df['solar'].dropna()` with its index. -/
def droppedSolar (idx : List ℚ) (scol : List (Option Value)) : List (ℚ × Value) :=
  (idx.zip scol).filterMap (fun p => p.2.map (fun v => (p.1, v)))

/-- One kept `solar` cell under `.apply(pd.Series)`: the API's solar cells
are JSON objects; a non-object cell is modelled as a conversion error. -/
def asObjPair : ℚ × Value → Option (ℚ × Record)
  | (t, Value.obj fs) => some (t, fs)
  | _ => none

/-- The rotated azimuth cell of one expanded solar row: a missing azimuth
stays missing (`NaN + 90` is `NaN`); a present non-numeric azimuth is a type
error. -/
def azTransform (p : ℚ × Record) : Option (Option Value) :=
  match cellOf p.2 "azimuth" with
  | some (Value.num q) => some (some (Value.num (qmod (q + 90) 360)))
  | some _ => none
  | none => some none

/-- The expanded, transformed and renamed solar mini-frame: one column per
sub-field key (union across the kept objects), the `azimuth` column replaced
by its rotated cells, every column renamed to `solar` + `title(key)`. -/
def solarFrameOf (tz : Option TZ) (objPairs : List (ℚ × Record))
    (azCells : List (Option Value)) : Frame :=
  let sks := unionKeys (objPairs.map Prod.snd)
  { index := objPairs.map Prod.fst,
    tz := tz,
    cols := sks.map (fun k =>
      ("solar" ++ pyTitle k,
        if k = "azimuth" then azCells
        else objPairs.map (fun p => cellOf p.2 k))) }

/-- Shallow embedding of `hourly_to_dataframe`: the base block conversion
plus flattening of the optional nested `solar` column.  The non-missing
solar cells are expanded into one column per sub-field (`apply(pd.Series)`),
the `azimuth` column is rotated by `(x + 90) % 360` (a `KeyError` when the
expansion has no `azimuth` column — e.g. when every solar cell is missing,
so the expansion of the empty selection has no columns at all), the expanded
columns are renamed `solar` + `title(name)`, joined back onto the base frame
on the index, and the original nested `solar` column is dropped. -/
def hourly_to_dataframe (d : List Record) : Option Frame :=
  match datablock_to_dataframe d with
  | none => none
  | some df =>
    match List.lookup "solar" df.cols with
    | none => some df
    | some scol =>
      match mapOpt asObjPair (droppedSolar df.index scol) with
      | none => none
      | some objPairs =>
        if "azimuth" ∈ unionKeys (objPairs.map Prod.snd) then
          match mapOpt azTransform objPairs with
          | none => none
          | some azCells =>
            match joinFrames df (solarFrameOf df.tz objPairs azCells) with
            | none => none
            | some j =>
              some { j with cols := j.cols.filter (fun c => c.1 ≠ "solar") }
        else none

/-- tz_convert: re-localize an (already aware) index; the underlying
instants are unchanged.  Raises on a naive index. -/
def tz_convert (f : Frame) (tz : TZ) : Option Frame :=
  match f.tz with
  | none => none
  | some _ => some { f with tz := some tz }

/-- The local calendar day (days since the epoch) an instant falls on in a
zone. -/
def localDay (tz : TZ) (t : ℚ) : ℤ := ⌊(t + (tz.offset t : ℚ)) / 86400⌋

/-- The instant labelling the daily resample bucket of local day `d`: local
midnight.  The offset is sampled at the nominal midnight, which is exact
whenever the zone's offset is constant around it (label resolution across a
DST jump is internal to the external datetime library). -/
def dayLabel (tz : TZ) (d : ℤ) : ℚ :=
  ((d * 86400 : ℤ) : ℚ) - (tz.offset ((d * 86400 : ℤ) : ℚ) : ℚ)

/-- The two reducers the daily aggregation uses. -/
inductive AggOp : Type where
  | mean : AggOp
  | sum : AggOp

/-- The present cells of a bucket, which aggregation needs numeric (numpy
reducers on non-numeric data raise). -/
def numCells (vs : List (Option Value)) : Option (List ℚ) :=
  mapOpt asNum (vs.filterMap id)

/-- Apply a reducer to the present values of a bucket.  `np.mean`/`np.sum`
passed to `agg` become the skipna pandas reducers: the mean of an empty
bucket is a missing cell, its sum is 0. -/
def applyAgg (op : AggOp) (qs : List ℚ) : Option Value :=
  match op with
  | AggOp.mean =>
      if qs.isEmpty then none
      else some (Value.num (qs.sum / (qs.length : ℚ)))
  | AggOp.sum => some (Value.num qs.sum)

/-- The daily bucket keys of a resample: every local day from the earliest
to the latest day the index touches (pandas emits the empty buckets in
between). -/
def resampleDays (tz : TZ) (t0 : ℚ) (ts : List ℚ) : List ℤ :=
  (List.range ((ts.foldl (fun a t => max a (localDay tz t)) (localDay tz t0) -
      ts.foldl (fun a t => min a (localDay tz t)) (localDay tz t0)) + 1).toNat).map
    (fun (k : ℕ) =>
      ts.foldl (fun a t => min a (localDay tz t)) (localDay tz t0) + (k : ℤ))

/-- One aggregated column of a resample: for each bucket day, reduce the
present cells of the rows falling on that local day. -/
def aggColumn (tz : TZ) (idx : List ℚ) (days : List ℤ) (op : AggOp)
    (cells : List (Option Value)) : Option (List (Option Value)) :=
  mapOpt (fun day =>
    (numCells (((idx.zip cells).filter
       (fun p => localDay tz p.1 = day)).map Prod.snd)).map (applyAgg op)) days

/-- Shallow embedding of `resample('d').agg(agg)`: rows are grouped by local
calendar day; one output row per day from the earliest to the latest day
present, labelled at local midnight, with one aggregated column per
requested reducer.  Requesting a column the frame does not have, or
aggregating non-numeric data, raises. -/
def resample_agg (f : Frame) (aggs : List (String × AggOp)) : Option Frame :=
  match f.index with
  | [] => some { index := [], tz := f.tz, cols := aggs.map (fun a => (a.1, [])) }
  | t0 :: ts =>
    match mapOpt (fun a =>
        match List.lookup a.1 f.cols with
        | none => none
        | some cells =>
          (aggColumn (f.tz.getD utcTZ) f.index
              (resampleDays (f.tz.getD utcTZ) t0 ts) a.2 cells).map
            (fun cs => (a.1, cs))) aggs with
    | none => none
    | some cols2 =>
        some { index := (resampleDays (f.tz.getD utcTZ) t0 ts).map
                 (dayLabel (f.tz.getD utcTZ)),
               tz := f.tz, cols := cols2 }

/-- Round half to even at the integers — the rounding numpy applies — on
exact rationals. -/
def rhalfEven (x : ℚ) : ℤ :=
  if Int.fract x < 1/2 then ⌊x⌋
  else if 1/2 < Int.fract x then ⌊x⌋ + 1
  else if 2 ∣ ⌊x⌋ then ⌊x⌋ else ⌊x⌋ + 1

/-- Numeric rounding to 2 decimal places (`DataFrame.round(2)` cellwise). -/
def round2 (x : ℚ) : ℚ := ((rhalfEven (x * 100) : ℤ) : ℚ) / 100

/-- `DataFrame.round(2)`: round every numeric cell, leave the rest alone. -/
def roundFrame2 (f : Frame) : Frame :=
  { f with cols := f.cols.map (fun c => (c.1, c.2.map (fun cell =>
      cell.map (fun v =>
        match v with
        | Value.num q => Value.num (round2 q)
        | w => w)))) }

/-- Key presence in a JSON object (`'hourly' in d`). -/
def containsKey (d : Record) (k : String) : Bool := (List.lookup k d).isSome

/-- Read `d[k]['data']` as a list of records (missing keys raise a
`KeyError`; `pd.DataFrame` needs the block to be an array of objects). -/
def getDatablock (d : Record) (k : String) : Option (List Record) :=
  match List.lookup k d with
  | some (Value.obj g) =>
    match List.lookup "data" g with
    | some (Value.arr xs) =>
      mapOpt (fun x => match x with | Value.obj r => some r | _ => none) xs
    | _ => none
  | _ => none

/-- Shallow embedding of `forecast_to_daily_dataframe`, parameterized by the
external timezone database `tzdb` (pytz): convert the `daily.data` block,
re-localize its index to the record's `timezone`, and — only when an
`hourly` key is present — normalize the hourly block, re-localize it,
resample it per local day aggregating `{temperature: mean, solarGhi: sum}`
restricted to the columns actually present, round to 2 decimals, and
left-join the result onto the daily frame. -/
def forecast_to_daily_dataframe (tzdb : String → Option TZ) (d : Record) :
    Option Frame :=
  match getDatablock d "daily" with
  | none => none
  | some daily =>
    match datablock_to_dataframe daily with
    | none => none
    | some df0 =>
      match List.lookup "timezone" d with
      | some (Value.str tzname) =>
        match tzdb tzname with
        | none => none
        | some tz =>
          match tz_convert df0 tz with
          | none => none
          | some df =>
            if containsKey d "hourly" then
              match getDatablock d "hourly" with
              | none => none
              | some hrecs =>
                match hourly_to_dataframe hrecs with
                | none => none
                | some h0 =>
                  match tz_convert h0 tz with
                  | none => none
                  | some h =>
                    match resample_agg h
                        ([("temperature", AggOp.mean), ("solarGhi", AggOp.sum)].filter
                          (fun a => (colNames h).contains a.1)) with
                    | none => none
                    | some r => joinFrames df (roundFrame2 r)
            else some df
      | _ => none

/-- The calendar date (days since the epoch) of a naive timestamp. -/
def dateOf (t : ℚ) : ℤ := ⌊t / 86400⌋

/-- Insert into a sorted list (ascending). -/
def insertSorted (x : ℤ) : List ℤ → List ℤ
  | [] => [x]
  | y :: ys => if x ≤ y then x :: y :: ys else y :: insertSorted x ys

/-- Insertion sort on integers (Python `sorted`). -/
def sortInts (l : List ℤ) : List ℤ := l.foldr insertSorted []

/-- Shallow embedding of `dayset`: the daily `rrule` emits `start`,
`start + 24h`, ... while the occurrence is ≤ `end` (nothing when
`end < start`); the calendar date of each occurrence is collected,
deduplicated (`set`) and sorted.  Instants are naive timestamps in epoch
seconds. -/
def dayset (start stop : ℚ) : List ℤ :=
  let n := if start ≤ stop then (⌊(stop - start) / 86400⌋ + 1).toNat else 0
  sortInts (((List.range n).map
    (fun (k : ℕ) => dateOf (start + 86400 * (k : ℚ)))).dedup)

/-- The network side of `get_forecast`: one HTTP request per call; for a
fixed api key, location and options the request is keyed by the local
midnight of the requested day.  An `Except.error` models a non-success
status raised by `raise_for_status`. -/
abbrev Fetch := ℤ → Except String Record

/-- The per-day generator inside `get_daily_dataframe`, with the network
effect made explicit state: alongside the per-day frames it returns the
days actually requested, in order; the first failed request or failed
conversion aborts the rest. -/
def gen_day_frames (tzdb : String → Option TZ) (fetch : Fetch) :
    List ℤ → List ℤ × Except String (List Frame)
  | [] => ([], Except.ok [])
  | d :: ds =>
    match fetch d with
    | Except.error e => ([d], Except.error e)
    | Except.ok f =>
      match forecast_to_daily_dataframe tzdb f with
      | none => ([d], Except.error "conversion error")
      | some fr =>
        match gen_day_frames tzdb fetch ds with
        | (log, Except.error e) => (d :: log, Except.error e)
        | (log, Except.ok frames) => (d :: log, Except.ok (fr :: frames))

/-- Insert into a sorted list of strings (ascending). -/
def insertSortedStr (x : String) : List String → List String
  | [] => [x]
  | y :: ys => if x ≤ y then x :: y :: ys else y :: insertSortedStr x ys

/-- Insertion sort on strings. -/
def sortStrings (l : List String) : List String := l.foldr insertSortedStr []

/-- Shallow embedding of `pd.concat(frames, sort=True)`: rows are stacked in
order, the column set is the union of the frames' columns sorted
alphabetically (`sort=True`), a frame without some column contributes
missing cells there, and concatenating an empty list of frames raises. -/
def concatFrames (fs : List Frame) : Option Frame :=
  match fs with
  | [] => none
  | f0 :: _ =>
    let allCols := sortStrings ((fs.map colNames).flatten.dedup)
    some { index := fs.flatMap (fun f => f.index),
           tz := f0.tz,
           cols := allCols.map (fun k =>
             (k, fs.flatMap (fun f =>
               match List.lookup k f.cols with
               | some cells => cells
               | none => f.index.map (fun _ => none)))) }

/-- Shallow embedding of `get_daily_dataframe` with the issued requests made
explicit: enumerate the days of the range, fetch and convert each (the lazy
generator is consumed whole by `pd.concat`), and concatenate the per-day
daily frames. -/
def get_daily_dataframe_run (tzdb : String → Option TZ) (fetch : Fetch)
    (start stop : ℚ) : List ℤ × Except String Frame :=
  match gen_day_frames tzdb fetch (dayset start stop) with
  | (log, Except.error e) => (log, Except.error e)
  | (log, Except.ok frames) =>
    match concatFrames frames with
    | none => (log, Except.error "no objects to concatenate")
    | some df => (log, Except.ok df)

/-- The loop of `get_daily_and_hourly_dataframes`: per day, fetch, build the
daily frame, then access `f['hourly']['data']` unconditionally (a `KeyError`
when the response has no hourly block), normalize it and re-localize it to
the response's timezone; the first failure aborts the loop. -/
def day_and_hour_frames (tzdb : String → Option TZ) (fetch : Fetch) :
    List ℤ → List ℤ × Except String (List Frame × List Frame)
  | [] => ([], Except.ok ([], []))
  | d :: ds =>
    match fetch d with
    | Except.error e => ([d], Except.error e)
    | Except.ok f =>
      match forecast_to_daily_dataframe tzdb f with
      | none => ([d], Except.error "daily conversion error")
      | some dayF =>
        match getDatablock f "hourly" with
        | none => ([d], Except.error "KeyError: hourly")
        | some hrecs =>
          match hourly_to_dataframe hrecs with
          | none => ([d], Except.error "hourly conversion error")
          | some h0 =>
            match List.lookup "timezone" f with
            | some (Value.str tzname) =>
              match tzdb tzname with
              | none => ([d], Except.error "timezone error")
              | some tz =>
                match tz_convert h0 tz with
                | none => ([d], Except.error "timezone error")
                | some h =>
                  match day_and_hour_frames tzdb fetch ds with
                  | (log, Except.error e) => (d :: log, Except.error e)
                  | (log, Except.ok p) =>
                    (d :: log, Except.ok (dayF :: p.1, h :: p.2))
            | _ => ([d], Except.error "timezone error")

/-- Shallow embedding of `get_daily_and_hourly_dataframes` with the issued
requests made explicit. -/
def get_daily_and_hourly_run (tzdb : String → Option TZ) (fetch : Fetch)
    (start stop : ℚ) : List ℤ × Except String (Frame × Frame) :=
  match day_and_hour_frames tzdb fetch (dayset start stop) with
  | (log, Except.error e) => (log, Except.error e)
  | (log, Except.ok p) =>
    match concatFrames p.1, concatFrames p.2 with
    | some ddf, some hdf => (log, Except.ok (ddf, hdf))
    | _, _ => (log, Except.error "no objects to concatenate")

/-! Concrete inputs used to instantiate the theorems below. -/

/-- The fragment of the external timezone database concrete instantiations
need: the UTC zone only. -/
def tzdbUTC : String → Option TZ :=
  fun s => if s = "UTC" then some (constTZ 0) else none

/-- The fragment of the external timezone database the Chicago scenario
needs: America/Chicago on a CST window (UTC-6; the first days of January
1970 are in standard time, so the offset is the constant -21600 s there). -/
def tzdbChicago : String → Option TZ :=
  fun s => if s = "America/Chicago" then some (constTZ (-21600)) else none

/-- Three daily records at Chicago local midnights of Jan 1-3 1970 (UTC
instants 21600 + 86400·j). -/
def c1DailyBlock : List Value :=
  (List.range 3).map (fun (j : ℕ) => Value.obj [("time", Value.num (21600 + 86400 * (j : ℚ)))])

/-- 72 hourly records covering those three local days hour by hour, with
arbitrary temperature and solarGhi values. -/
def c1HourlyBlock (t g : ℕ → ℚ) : List Value :=
  (List.range 72).map (fun (i : ℕ) => Value.obj
    [("time", Value.num (21600 + 3600 * (i : ℚ))),
     ("temperature", Value.num (t i)),
     ("solarGhi", Value.num (g i))])

/-- A Chicago forecast response: 3 daily records, 72 hourly records. -/
def c1Forecast (t g : ℕ → ℚ) : Record :=
  [("timezone", Value.str "America/Chicago"),
   ("daily", Value.obj [("data", Value.arr c1DailyBlock)]),
   ("hourly", Value.obj [("data", Value.arr (c1HourlyBlock t g))])]

/-- An hourly block with a duplicated `time` instant, `solar` present on
both records. -/
def dupTimeBlock : List Record :=
  [[("time", Value.num 0),
    ("solar", Value.obj [("azimuth", Value.num 270), ("ghi", Value.num 500)])],
   [("time", Value.num 0),
    ("solar", Value.obj [("azimuth", Value.num 270), ("ghi", Value.num 500)])]]

/-- An hourly block whose second record carries a non-missing solar object
without an `azimuth` sub-field, while the first record's solar has one. -/
def mixedAzimuthBlock : List Record :=
  [[("time", Value.num 0),
    ("solar", Value.obj [("azimuth", Value.num 10), ("ghi", Value.num 1)])],
   [("time", Value.num 3600), ("solar", Value.obj [("ghi", Value.num 2)])]]

/-- A forecast whose hourly block omits `solarGhi` entirely and has
`temperature`, but whose `solar` column is all-null. -/
def c5CexForecast : Record :=
  [("timezone", Value.str "UTC"),
   ("daily", Value.obj [("data", Value.arr [Value.obj [("time", Value.num 0)]])]),
   ("hourly", Value.obj [("data", Value.arr
     [Value.obj [("time", Value.num 0), ("temperature", Value.num 5),
                 ("solar", Value.null)]])])]

/-- A forecast whose hourly block has a numeric `temperature`, no solar
data at all, and no `solarGhi`. -/
def c5WitForecast : Record :=
  [("timezone", Value.str "UTC"),
   ("daily", Value.obj [("data", Value.arr [Value.obj [("time", Value.num 0)]])]),
   ("hourly", Value.obj [("data", Value.arr
     [Value.obj [("time", Value.num 0), ("temperature", Value.num 5)]])])]

/-- A minimal daily-only forecast (no hourly block), one daily record at
UTC midnight of the requested day. -/
def simpleForecast : Record :=
  [("timezone", Value.str "UTC"),
   ("daily", Value.obj [("data", Value.arr [Value.obj [("time", Value.num 0)]])])]

/-- The daily frame `simpleForecast` converts to. -/
def sfFrame : Frame := { index := [0], tz := some (constTZ 0), cols := [] }

/-- A transport that answers every request with `simpleForecast`. -/
def okFetch : Fetch := fun _ => Except.ok simpleForecast

/-- A transport that fails with a non-success status on day 2 (the third
day of the range 0..4) and behaves like `okFetch` elsewhere. -/
def failThirdFetch : Fetch :=
  fun d => if d = 2 then Except.error "HTTP 500" else Except.ok simpleForecast

/-- An hourly block whose first record carries `solar = {azimuth: 270,
ghi: 500}` and whose second record has no solar at all. -/
def c2WitBlock : List Record :=
  [[("time", Value.num 0),
    ("solar", Value.obj [("azimuth", Value.num 270), ("ghi", Value.num 500)])],
   [("time", Value.num 3600)]]

/-- One hourly record of the Chicago scenario: `time`, a `temperature` and a
`solarGhi` sample. -/
def c1Rec (t g : ℕ → ℚ) (i : ℕ) : Record :=
  [("time", Value.num (21600 + 3600 * (i : ℚ))),
   ("temperature", Value.num (t i)),
   ("solarGhi", Value.num (g i))]

/-- The cells of one resample bucket: walk the index and one column together,
keeping each cell whose instant satisfies the predicate (the
`zip`/`filter`/`map snd` inside `aggColumn`, in paired-recursion form). -/
def selSnd (p : ℚ → Bool) : List ℚ → List (Option Value) → List (Option Value)
  | t :: ts, c :: cs => if p t then c :: selSnd p ts cs else selSnd p ts cs
  | _, _ => []

/-- The 71 later hourly instants of the Chicago scenario (hours 1 to 71 after
the first local midnight). -/
def c1Tail : List ℚ := (List.range 71).map (fun (i : ℕ) => 25200 + 3600 * (i : ℚ))

/-- The mean of 24 consecutive hourly samples starting at hour `h`. -/
def dayMean (t : ℕ → ℚ) (h : ℕ) : ℚ :=
  (((List.range 24).map (fun k => t (h + k))).sum) / 24

/-- The sum of 24 consecutive hourly samples starting at hour `h`. -/
def daySum (g : ℕ → ℚ) (h : ℕ) : ℚ := ((List.range 24).map (fun k => g (h + k))).sum

/-- The two columns the Chicago hourly block converts to. -/
def c1ColsMap (t g : ℕ → ℚ) : List (String × List (Option Value)) :=
  [("temperature", (List.range 72).map (fun (i : ℕ) => some (Value.num (t i)))),
   ("solarGhi", (List.range 72).map (fun (i : ℕ) => some (Value.num (g i))))]

/-! ### Helper lemmas -/

theorem insertSorted_le (x y : ℤ) (ys : List ℤ) (hxy : x ≤ y) :
    insertSorted x (y :: ys) = x :: y :: ys := by
  simp [insertSorted, hxy]

theorem sortInts_of_sorted :
    ∀ l : List ℤ, List.Pairwise (· ≤ ·) l → sortInts l = l
  | [], _ => rfl
  | a :: l, h => by
    have h1 := (List.pairwise_cons.mp h).1
    have h2 := (List.pairwise_cons.mp h).2
    have ih := sortInts_of_sorted l h2
    show insertSorted a (sortInts l) = a :: l
    rw [ih]
    cases l with
    | nil => rfl
    | cons b bs => exact insertSorted_le a b bs (h1 b (by simp))

theorem dateOf_add_days (s : ℚ) (k : ℕ) :
    dateOf (s + 86400 * (k : ℚ)) = dateOf s + (k : ℤ) := by
  unfold dateOf
  have h : (s + 86400 * (k : ℚ)) / 86400 = s / 86400 + ((k : ℤ) : ℚ) := by
    push_cast
    field_simp
    ring
  rw [h, Int.floor_add_int]

/-! ### C3: `dayset` -/

/-- C3 (corrected): for `start ≤ end`, `dayset` returns the calendar dates
of `start`, `start + 24h`, ..., that is `⌊(end - start) / 86400⌋ + 1`
consecutive dates beginning at `start`'s date, sorted strictly ascending
with no duplicates.  This equals `(end.date - start.date).days + 1` only
when `end`'s time of day is not earlier than `start`'s. -/
theorem c3_dayset_count (s e : ℚ) (h : s ≤ e) :
    dayset s e = (List.range (⌊(e - s) / 86400⌋ + 1).toNat).map
      (fun (k : ℕ) => dateOf s + (k : ℤ)) ∧
    (dayset s e).length = (⌊(e - s) / 86400⌋ + 1).toNat ∧
    List.Pairwise (· < ·) (dayset s e) := by
  set n := (⌊(e - s) / 86400⌋ + 1).toNat with hn
  have h0 : dayset s e = sortInts (((List.range n).map
      (fun (k : ℕ) => dateOf (s + 86400 * (k : ℚ)))).dedup) := by
    unfold dayset
    rw [if_pos h]
  have hmap : (List.range n).map (fun (k : ℕ) => dateOf (s + 86400 * (k : ℚ)))
      = (List.range n).map (fun (k : ℕ) => dateOf s + (k : ℤ)) := by
    refine List.map_congr_left ?_
    intro k _
    exact dateOf_add_days s k
  have hpw : List.Pairwise (· < ·)
      ((List.range n).map (fun (k : ℕ) => dateOf s + (k : ℤ))) := by
    refine List.Pairwise.map _ ?_ (List.pairwise_lt_range n)
    intro a b hab
    omega
  have hnd : ((List.range n).map (fun (k : ℕ) => dateOf s + (k : ℤ))).Nodup :=
    hpw.imp (fun hab => ne_of_lt hab)
  have hmain : dayset s e = (List.range n).map (fun (k : ℕ) => dateOf s + (k : ℤ)) := by
    rw [h0, hmap, List.dedup_eq_self.mpr hnd]
    exact sortInts_of_sorted _ (hpw.imp (fun hab => le_of_lt hab))
  refine ⟨hmain, ?_, ?_⟩
  · rw [hmain]
    simp
  · rw [hmain]
    exact hpw

/-- C3 witness: a two-day range evaluated concretely through the theorem. -/
theorem c3_dayset_count_witness : (dayset (0 : ℚ) 86400).length = 2 := by
  have h := (c3_dayset_count 0 86400 (by norm_num)).2.1
  rw [h]
  decide

/-- C3 counterexample: `start` at 23:00 of day 0 and `end` at 01:00 of day
2 satisfy `start ≤ end`, but `dayset` returns 2 dates while the claim
predicts `(end.date - start.date).days + 1 = 3`. -/
theorem c3_dayset_counterexample :
    ((82800 : ℚ) ≤ 176400) ∧
    (dayset 82800 176400).length ≠ (dateOf 176400 - dateOf 82800 + 1).toNat := by
  constructor
  · norm_num
  · decide

/-! ### C7: empty block -/

/-- C7 counterexample: on the empty block the converter raises (the frame
`pd.DataFrame([])` has no columns, so `df['time']` is a `KeyError`) instead
of returning an empty table. -/
theorem c7_counterexample : datablock_to_dataframe ([] : List Record) = none := rfl

/-- C7 (corrected): `datablock_to_dataframe` applied to an empty record
sequence raises a `KeyError` on the missing `time` column rather than
returning an empty timestamp-indexed table. -/
theorem c7_empty_raises : (datablock_to_dataframe ([] : List Record)).isSome = false := rfl

/-! ### Frame timezone lemmas -/

theorem datablock_tz {d : List Record} {f : Frame}
    (h : datablock_to_dataframe d = some f) : f.tz = some utcTZ := by
  unfold datablock_to_dataframe at h
  by_cases hmem : "time" ∈ unionKeys d
  · rw [if_pos hmem] at h
    split at h
    · injection h with h2
      rw [← h2]
    · cases h
  · rw [if_neg hmem] at h
    cases h

theorem joinFrames_tz {l r j : Frame} (h : joinFrames l r = some j) :
    j.tz = l.tz := by
  unfold joinFrames at h
  split at h
  · cases h
  · injection h with h2
    rw [← h2]
    rfl

theorem tz_convert_some {f : Frame} {tz : TZ} {g : Frame}
    (h : tz_convert f tz = some g) : g = { f with tz := some tz } := by
  unfold tz_convert at h
  split at h
  · cases h
  · injection h with h2
    exact h2.symm

theorem hourly_tz {d : List Record} {f : Frame}
    (h : hourly_to_dataframe d = some f) : f.tz = some utcTZ := by
  unfold hourly_to_dataframe at h
  split at h
  · cases h
  · rename_i df hdf
    have hdtz : df.tz = some utcTZ := datablock_tz hdf
    split at h
    · injection h with h2
      rw [← h2]
      exact hdtz
    · split at h
      · cases h
      · split at h
        · split at h
          · cases h
          · split at h
            · cases h
            · rename_i j hj
              injection h with h2
              rw [← h2]
              exact (joinFrames_tz hj).trans hdtz
        · cases h

theorem forecast_tz {tzdb : String → Option TZ} {d : Record} {f : Frame}
    (h : forecast_to_daily_dataframe tzdb d = some f) : ∃ z, f.tz = some z := by
  unfold forecast_to_daily_dataframe at h
  split at h
  · cases h
  · split at h
    · cases h
    · rename_i df0 hdf0
      split at h
      · rename_i tzname htzn
        split at h
        · cases h
        · rename_i tz htz
          split at h
          · cases h
          · rename_i df hdfc
            have hdftz : df.tz = some tz := by
              rw [tz_convert_some hdfc]
            split at h
            · split at h
              · cases h
              · split at h
                · cases h
                · split at h
                  · cases h
                  · split at h
                    · cases h
                    · rename_i r hr
                      exact ⟨tz, (joinFrames_tz h).trans hdftz⟩
            · injection h with h2
              rw [← h2]
              exact ⟨tz, hdftz⟩
      · cases h

/-! ### C4: `datablock_to_dataframe` round trip -/

/-- C4: for every non-empty block of records with valid epoch `time`
values, the frame's index is exactly the input time sequence (the
round-trip of epoch seconds through the index is the identity), and the
index is timezone-aware in UTC. -/
theorem c4_time_roundtrip (d : List Record) (times : List ℚ) (f : Frame)
    (_hne : d ≠ [])
    (ht : blockTimes d = some times)
    (hdf : datablock_to_dataframe d = some f) :
    f.index = times ∧ f.tz = some utcTZ := by
  unfold datablock_to_dataframe at hdf
  by_cases hmem : "time" ∈ unionKeys d
  · rw [if_pos hmem] at hdf
    simp only [ht] at hdf
    injection hdf with h2
    rw [← h2]
    exact ⟨rfl, rfl⟩
  · rw [if_neg hmem] at hdf
    cases hdf

/-- C4 witness: a one-record block with `time = 12`. -/
theorem c4_time_roundtrip_witness :
    ({ index := [12], tz := some utcTZ, cols := [] } : Frame).index = [12] ∧
    ({ index := [12], tz := some utcTZ, cols := [] } : Frame).tz = some utcTZ :=
  c4_time_roundtrip [[("time", Value.num 12)]] [12]
    { index := [12], tz := some utcTZ, cols := [] }
    (by simp) (by rfl) (by rfl)

/-! ### C8: indexes are always timezone-aware -/

/-- C8: every frame produced by `datablock_to_dataframe`,
`hourly_to_dataframe` or `forecast_to_daily_dataframe` carries a
timezone-aware index — never a naive one. -/
theorem c8_always_tz_aware :
    (∀ d f, datablock_to_dataframe d = some f → f.tz.isSome = true) ∧
    (∀ d f, hourly_to_dataframe d = some f → f.tz.isSome = true) ∧
    (∀ tzdb d f, forecast_to_daily_dataframe tzdb d = some f →
      f.tz.isSome = true) := by
  refine ⟨?_, ?_, ?_⟩
  · intro d f h
    rw [datablock_tz h]
    rfl
  · intro d f h
    rw [hourly_tz h]
    rfl
  · intro tzdb d f h
    obtain ⟨z, hz⟩ := forecast_tz h
    rw [hz]
    rfl

/-- C8 witness: the first conjunct applied to a concrete one-record block. -/
theorem c8_always_tz_aware_witness :
    ({ index := [7], tz := some utcTZ, cols := [] } : Frame).tz.isSome = true :=
  c8_always_tz_aware.1 [[("time", Value.num 7)]]
    { index := [7], tz := some utcTZ, cols := [] } (by rfl)

/-! ### C6: one request per day, fail-fast -/

/-- C6: over a range whose `dayset` has 5 days, `get_daily_dataframe`
issues exactly 5 forecast requests, one per enumerated day in order, and
returns a 5-row table when every daily response converts to a one-row
frame; with a transport that agrees on the first two days but fails on the
third, only 3 requests are issued, the error propagates, and no partial
table is returned. -/
theorem c6_five_requests (tzdb : String → Option TZ) (fetch fetchF : Fetch)
    (start stop : ℚ) (d1 d2 d3 d4 d5 : ℤ) (f1 f2 f3 f4 f5 : Record)
    (g1 g2 g3 g4 g5 : Frame) (msg : String)
    (hdays : dayset start stop = [d1, d2, d3, d4, d5])
    (hf1 : fetch d1 = Except.ok f1) (hf2 : fetch d2 = Except.ok f2)
    (hf3 : fetch d3 = Except.ok f3) (hf4 : fetch d4 = Except.ok f4)
    (hf5 : fetch d5 = Except.ok f5)
    (hc1 : forecast_to_daily_dataframe tzdb f1 = some g1)
    (hc2 : forecast_to_daily_dataframe tzdb f2 = some g2)
    (hc3 : forecast_to_daily_dataframe tzdb f3 = some g3)
    (hc4 : forecast_to_daily_dataframe tzdb f4 = some g4)
    (hc5 : forecast_to_daily_dataframe tzdb f5 = some g5)
    (hr1 : g1.index.length = 1) (hr2 : g2.index.length = 1)
    (hr3 : g3.index.length = 1) (hr4 : g4.index.length = 1)
    (hr5 : g5.index.length = 1)
    (hFa : fetchF d1 = Except.ok f1) (hFb : fetchF d2 = Except.ok f2)
    (hFc : fetchF d3 = Except.error msg) :
    (get_daily_dataframe_run tzdb fetch start stop).1 = [d1, d2, d3, d4, d5] ∧
    (∃ df, (get_daily_dataframe_run tzdb fetch start stop).2 = Except.ok df ∧
      df.index.length = 5) ∧
    get_daily_dataframe_run tzdb fetchF start stop =
      ([d1, d2, d3], Except.error msg) := by
  have hgen : gen_day_frames tzdb fetch [d1, d2, d3, d4, d5] =
      ([d1, d2, d3, d4, d5], Except.ok [g1, g2, g3, g4, g5]) := by
    simp [gen_day_frames, hf1, hf2, hf3, hf4, hf5, hc1, hc2, hc3, hc4, hc5]
  have hgenF : gen_day_frames tzdb fetchF [d1, d2, d3, d4, d5] =
      ([d1, d2, d3], Except.error msg) := by
    simp [gen_day_frames, hFa, hFb, hFc, hc1, hc2]
  have hcat : ∃ df, concatFrames [g1, g2, g3, g4, g5] = some df ∧
      df.index.length = 5 := by
    refine ⟨_, rfl, ?_⟩
    simp [List.length_append, hr1, hr2, hr3, hr4, hr5]
  obtain ⟨df, hdf, hlen⟩ := hcat
  refine ⟨?_, ⟨df, ?_, hlen⟩, ?_⟩
  · simp only [get_daily_dataframe_run, hdays, hgen, hdf]
  · simp only [get_daily_dataframe_run, hdays, hgen, hdf]
  · simp only [get_daily_dataframe_run, hdays, hgenF]

/-- C6 witness: a concrete 5-day range with a constant transport and a
transport failing on the third day. -/
theorem c6_five_requests_witness :
    (get_daily_dataframe_run tzdbUTC okFetch 0 345600).1 = [0, 1, 2, 3, 4] ∧
    (∃ df, (get_daily_dataframe_run tzdbUTC okFetch 0 345600).2 = Except.ok df ∧
      df.index.length = 5) ∧
    get_daily_dataframe_run tzdbUTC failThirdFetch 0 345600 =
      ([0, 1, 2], Except.error "HTTP 500") :=
  c6_five_requests tzdbUTC okFetch failThirdFetch 0 345600 0 1 2 3 4
    simpleForecast simpleForecast simpleForecast simpleForecast simpleForecast
    sfFrame sfFrame sfFrame sfFrame sfFrame "HTTP 500"
    (by decide)
    (by rfl) (by rfl)
    (by rfl) (by rfl)
    (by rfl)
    (by rfl) (by rfl)
    (by rfl) (by rfl)
    (by rfl)
    rfl rfl rfl rfl rfl
    (by rfl) (by rfl)
    (by rfl)

/-! ### C10: unconditional hourly access -/

/-- C10: when a day's response has no `hourly` block,
`get_daily_and_hourly_dataframes` fails with the lookup error from its
unconditional `f['hourly']['data']` access, while `get_daily_dataframe`
over the same range and transport succeeds (the daily aggregator checks
`'hourly' in d` first) and returns the daily-only table. -/
theorem c10_hourly_lookup_error (tzdb : String → Option TZ) (fetch : Fetch)
    (start stop : ℚ) (d : ℤ) (f : Record) (df : Frame)
    (hdays : dayset start stop = [d])
    (hf : fetch d = Except.ok f)
    (hdf : forecast_to_daily_dataframe tzdb f = some df)
    (hnoh : containsKey f "hourly" = false) :
    (get_daily_and_hourly_run tzdb fetch start stop).2 =
      Except.error "KeyError: hourly" ∧
    (∃ df2, (get_daily_dataframe_run tzdb fetch start stop).2 = Except.ok df2 ∧
      df2.index = df.index ∧ colNames df2 = sortStrings (colNames df).dedup) := by
  have hlk : List.lookup "hourly" f = none := by
    cases hl : List.lookup "hourly" f with
    | none => rfl
    | some v =>
      unfold containsKey at hnoh
      rw [hl] at hnoh
      simp at hnoh
  have hgd : getDatablock f "hourly" = none := by
    unfold getDatablock
    rw [hlk]
  constructor
  · have hloop : day_and_hour_frames tzdb fetch [d] =
        ([d], Except.error "KeyError: hourly") := by
      simp [day_and_hour_frames, hf, hdf, hgd]
    unfold get_daily_and_hourly_run
    rw [hdays, hloop]
  · have hgen : gen_day_frames tzdb fetch [d] = ([d], Except.ok [df]) := by
      simp [gen_day_frames, hf, hdf]
    cases hcc : concatFrames [df] with
    | none =>
      simp only [concatFrames] at hcc
      exact Option.noConfusion hcc
    | some df2 =>
      have hstruct := hcc
      simp only [concatFrames] at hstruct
      injection hstruct with h2
      refine ⟨df2, ?_, ?_, ?_⟩
      · simp only [get_daily_dataframe_run, hdays, hgen, hcc]
      · rw [← h2]
        simp
      · rw [← h2]
        simp only [colNames, List.map_map]
        have hfst : ∀ (l : List String) (F : String → List (Option Value)),
            List.map (Prod.fst ∘ fun k => (k, F k)) l = l := by
          intro l F
          induction l with
          | nil => rfl
          | cons a t ih => simp [ih, Function.comp]
        simp [hfst]
        rfl

/-- C10 witness: a one-day range answered by a daily-only forecast. -/
theorem c10_hourly_lookup_error_witness :
    (get_daily_and_hourly_run tzdbUTC okFetch 0 0).2 =
      Except.error "KeyError: hourly" ∧
    (∃ df2, (get_daily_dataframe_run tzdbUTC okFetch 0 0).2 = Except.ok df2 ∧
      df2.index = sfFrame.index ∧
      colNames df2 = sortStrings (colNames sfFrame).dedup) :=
  c10_hourly_lookup_error tzdbUTC okFetch 0 0 0 simpleForecast sfFrame
    (by decide) (by rfl)
    (by rfl) (by rfl)

/-! ### List plumbing lemmas -/

theorem mapOpt_length {α β : Type} {f : α → Option β} {l : List α} {l2 : List β}
    (h : mapOpt f l = some l2) : l2.length = l.length := by
  induction l generalizing l2 with
  | nil =>
    injection h with h2
    rw [← h2]
    rfl
  | cons a t ih =>
    unfold mapOpt at h
    cases hfa : f a with
    | none =>
      simp only [hfa] at h
      cases h
    | some b =>
      cases hmt : mapOpt f t with
      | none =>
        simp only [hfa, hmt] at h
        cases h
      | some bs =>
        simp only [hfa, hmt] at h
        injection h with h2
        rw [← h2]
        simp [ih hmt]

theorem mapOpt_get {α β : Type} {f : α → Option β} {l : List α} {l2 : List β}
    (h : mapOpt f l = some l2) :
    ∀ i a, l.get? i = some a → ∃ b, f a = some b ∧ l2.get? i = some b := by
  induction l generalizing l2 with
  | nil => intro i a ha; cases ha
  | cons x t ih =>
    unfold mapOpt at h
    cases hfa : f x with
    | none =>
      simp only [hfa] at h
      cases h
    | some b =>
      cases hmt : mapOpt f t with
      | none =>
        simp only [hfa, hmt] at h
        cases h
      | some bs =>
        simp only [hfa, hmt] at h
        injection h with h2
        intro i a ha
        cases i with
        | zero =>
          injection ha with ha2
          subst ha2
          exact ⟨b, hfa, by rw [← h2]; rfl⟩
        | succ n =>
          obtain ⟨b2, hb2, hget⟩ := ih hmt n a ha
          exact ⟨b2, hb2, by rw [← h2]; exact hget⟩

theorem mapOpt_mem {α β : Type} {f : α → Option β} {l : List α} {l2 : List β}
    (h : mapOpt f l = some l2) {b : β} (hb : b ∈ l2) :
    ∃ a ∈ l, f a = some b := by
  induction l generalizing l2 with
  | nil =>
    injection h with h2
    rw [← h2] at hb
    cases hb
  | cons x t ih =>
    unfold mapOpt at h
    cases hfa : f x with
    | none =>
      simp only [hfa] at h
      cases h
    | some b0 =>
      cases hmt : mapOpt f t with
      | none =>
        simp only [hfa, hmt] at h
        cases h
      | some bs =>
        simp only [hfa, hmt] at h
        injection h with h2
        rw [← h2] at hb
        cases List.mem_cons.mp hb with
        | inl he =>
          subst he
          exact ⟨x, by simp, hfa⟩
        | inr ht =>
          obtain ⟨a, hmem, hfa2⟩ := ih hmt ht
          exact ⟨a, by simp [hmem], hfa2⟩

theorem mapOpt_isSome {α β : Type} {f : α → Option β} {l : List α}
    (h : ∀ a ∈ l, (f a).isSome = true) : ∃ l2, mapOpt f l = some l2 := by
  induction l with
  | nil => exact ⟨[], rfl⟩
  | cons x t ih =>
    obtain ⟨b, hb⟩ := Option.isSome_iff_exists.mp (h x (by simp))
    obtain ⟨bs, hbs⟩ := ih (fun a ha => h a (by simp [ha]))
    exact ⟨b :: bs, by unfold mapOpt; simp [hb, hbs]⟩

theorem mem_insertKey {ks : List String} {k k2 : String} :
    k ∈ insertKey ks k2 ↔ k ∈ ks ∨ k = k2 := by
  unfold insertKey
  split
  · rename_i hmem
    constructor
    · exact Or.inl
    · intro hor
      cases hor with
      | inl h => exact h
      | inr h => rw [h]; exact hmem
  · simp [List.mem_append]

theorem mem_recordKeys {r : Record} {k : String} :
    ∀ {acc : List String},
      k ∈ recordKeys acc r ↔ k ∈ acc ∨ k ∈ r.map Prod.fst := by
  induction r with
  | nil => intro acc; simp [recordKeys]
  | cons kv t ih =>
    intro acc
    show k ∈ recordKeys (insertKey acc kv.1) t ↔ _
    rw [ih, mem_insertKey]
    simp only [List.map_cons, List.mem_cons]
    tauto

theorem mem_unionKeys {rs : List Record} {k : String} :
    k ∈ unionKeys rs ↔ ∃ r ∈ rs, k ∈ r.map Prod.fst := by
  have haux : ∀ (rs : List Record) (acc : List String),
      k ∈ rs.foldl recordKeys acc ↔ k ∈ acc ∨ ∃ r ∈ rs, k ∈ r.map Prod.fst := by
    intro rs
    induction rs with
    | nil => intro acc; simp
    | cons r t ih =>
      intro acc
      rw [List.foldl_cons, ih, mem_recordKeys]
      simp only [List.mem_cons]
      constructor
      · rintro (( h | h) | ⟨r2, hr2, hk⟩)
        · exact Or.inl h
        · exact Or.inr ⟨r, Or.inl rfl, h⟩
        · exact Or.inr ⟨r2, Or.inr hr2, hk⟩
      · rintro (h | ⟨r2, (rfl | hr2), hk⟩)
        · exact Or.inl (Or.inl h)
        · exact Or.inl (Or.inr hk)
        · exact Or.inr ⟨r2, hr2, hk⟩
  rw [unionKeys, haux]
  simp

theorem lookup_map_of_unique {β : Type} {l : List String} {k0 : String}
    (name : String → String) (F : String → β)
    (hmem : k0 ∈ l) (huniq : ∀ k ∈ l, name k = name k0 → k = k0) :
    List.lookup (name k0) (l.map (fun k => (name k, F k))) = some (F k0) := by
  induction l with
  | nil => cases hmem
  | cons a t ih =>
    by_cases ha : a = k0
    · subst ha
      simp [List.lookup]
    · have hne : name k0 ≠ name a := by
        intro hEq
        exact ha (huniq a (by simp) hEq.symm)
      have hmem2 : k0 ∈ t := by
        cases List.mem_cons.mp hmem with
        | inl h => exact absurd h.symm ha
        | inr h => exact h
      have hbeq : (name k0 == name a) = false := beq_eq_false_iff_ne.mpr hne
      simp only [List.map_cons, List.lookup, hbeq]
      exact ih hmem2 (fun k hk hEq => huniq k (by simp [hk]) hEq)

theorem lookup_map_self {β : Type} {l : List String} {k0 : String}
    (F : String → β) (hmem : k0 ∈ l) :
    List.lookup k0 (l.map (fun k => (k, F k))) = some (F k0) :=
  lookup_map_of_unique (fun k => k) F hmem (fun _ _ h => h)

theorem lookup_some_mem_fst {β : Type} {l : List (String × β)} {k : String}
    {v : β} (h : List.lookup k l = some v) : k ∈ l.map Prod.fst := by
  induction l with
  | nil => cases h
  | cons a t ih =>
    by_cases hk : k = a.1
    · simp [hk]
    · have hbeq : (k == a.1) = false := beq_eq_false_iff_ne.mpr hk
      simp only [List.lookup, hbeq] at h
      simp [ih h]

theorem lookup_none_of_not_mem {β : Type} {l : List (String × β)} {k : String}
    (h : k ∉ l.map Prod.fst) : List.lookup k l = none := by
  cases hl : List.lookup k l with
  | none => rfl
  | some v => exact absurd (lookup_some_mem_fst hl) h

theorem lookup_append {β : Type} {l1 l2 : List (String × β)} {k : String} :
    List.lookup k (l1 ++ l2) =
      match List.lookup k l1 with
      | some v => some v
      | none => List.lookup k l2 := by
  induction l1 with
  | nil => rfl
  | cons a t ih =>
    by_cases hk : k = a.1
    · simp [List.lookup, hk]
    · have hbeq : (k == a.1) = false := beq_eq_false_iff_ne.mpr hk
      simp only [List.cons_append, List.lookup, hbeq]
      exact ih

theorem lookup_filter_ne {β : Type} {l : List (String × β)} {k bad : String}
    (h : k ≠ bad) :
    List.lookup k (l.filter (fun c => c.1 ≠ bad)) = List.lookup k l := by
  induction l with
  | nil => rfl
  | cons a t ih =>
    by_cases hb : a.1 = bad
    · have hd : decide (a.1 ≠ bad) = false := by simp [hb]
      have hbeq : (k == a.1) = false :=
        beq_eq_false_iff_ne.mpr (by rw [hb]; exact h)
      simp only [List.filter_cons, hd, Bool.false_eq_true, if_false,
        List.lookup, hbeq]
      exact ih
    · have hd : decide (a.1 ≠ bad) = true := by simp [hb]
      by_cases hk : k = a.1
      · simp [List.filter_cons, hd, List.lookup, hk, hb]
      · have hbeq : (k == a.1) = false := beq_eq_false_iff_ne.mpr hk
        simp only [List.filter_cons, hd, if_true, List.lookup, hbeq]
        exact ih

/-! ### `datablock_to_dataframe` structure -/

theorem datablock_parts {d : List Record} {f : Frame}
    (h : datablock_to_dataframe d = some f) :
    blockTimes d = some f.index ∧
    f.cols = ((unionKeys d).filter (fun k => k ≠ "time")).map
      (fun k => (k, d.map (fun r => cellOf r k))) := by
  unfold datablock_to_dataframe at h
  by_cases hmem : "time" ∈ unionKeys d
  · rw [if_pos hmem] at h
    cases ht : blockTimes d with
    | none =>
      simp only [ht] at h
      cases h
    | some times =>
      simp only [ht] at h
      injection h with h2
      subst h2
      exact ⟨rfl, rfl⟩
  · rw [if_neg hmem] at h
    cases h

/-! ### C9: solar flattening error conditions -/

/-- C9 (corrected): if the `solar` column exists but no non-missing solar
cell is an object carrying an `azimuth` sub-field — in particular when
every solar cell is missing — `hourly_to_dataframe` raises the `KeyError`
from `solar['azimuth']`.  (A record whose solar object merely lacks
`azimuth` while another record's has one does not raise; see the
counterexample.) -/
theorem c9_solar_without_azimuth_raises (d : List Record)
    (hs : "solar" ∈ unionKeys d)
    (hnoaz : ∀ r ∈ d, ∀ v, cellOf r "solar" = some v →
      ∃ fs, v = Value.obj fs ∧ "azimuth" ∉ fs.map Prod.fst) :
    hourly_to_dataframe d = none := by
  unfold hourly_to_dataframe
  cases hdb : datablock_to_dataframe d with
  | none => rfl
  | some df =>
    obtain ⟨htimes, hcols⟩ := datablock_parts hdb
    have hlook : List.lookup "solar" df.cols =
        some (d.map (fun r => cellOf r "solar")) := by
      rw [hcols]
      exact lookup_map_self _ (by
        rw [List.mem_filter]
        exact ⟨hs, by decide⟩)
    simp only [hlook]
    cases hop : mapOpt asObjPair
        (droppedSolar df.index (d.map (fun r => cellOf r "solar"))) with
    | none => rfl
    | some objPairs =>
      have haz : "azimuth" ∉ unionKeys (objPairs.map Prod.snd) := by
        intro hmem2
        obtain ⟨fs, hfs_mem, hfs_key⟩ := mem_unionKeys.mp hmem2
        obtain ⟨p, hp_mem, hp_snd⟩ := List.mem_map.mp hfs_mem
        obtain ⟨a, ha_mem, ha_eq⟩ := mapOpt_mem hop hp_mem
        obtain ⟨q, hq_mem, hq_eq⟩ := List.mem_filterMap.mp ha_mem
        obtain ⟨v, hv_eq, hv_pair⟩ := Option.map_eq_some'.mp hq_eq
        have hscol : q.2 ∈ d.map (fun r => cellOf r "solar") :=
          (List.of_mem_zip hq_mem).2
        obtain ⟨r, hr_mem, hr_eq⟩ := List.mem_map.mp hscol
        obtain ⟨fs2, hfs2_eq, hfs2_noaz⟩ :=
          hnoaz r hr_mem v (by rw [hr_eq, hv_eq])
        subst hfs2_eq
        rw [← hv_pair] at ha_eq
        unfold asObjPair at ha_eq
        injection ha_eq with ha2
        rw [← ha2] at hp_snd
        rw [← hp_snd] at hfs_key
        exact hfs2_noaz hfs_key
      simp [haz]

/-- C9 witness: a block whose only record has a null `solar` cell (the
column exists, every cell is missing), through the theorem. -/
theorem c9_solar_without_azimuth_raises_witness :
    hourly_to_dataframe [[("time", Value.num 0), ("solar", Value.null)]] = none :=
  c9_solar_without_azimuth_raises _ (by decide) (by
    intro r hr v hv
    rw [List.mem_singleton] at hr
    subst hr
    have hc : cellOf [("time", Value.num 0), ("solar", Value.null)] "solar"
        = none := rfl
    rw [hc] at hv
    cases hv)

/-- C9 counterexample: a record whose non-missing solar object lacks
`azimuth` (the second of `mixedAzimuthBlock`) does not make
`hourly_to_dataframe` raise — it succeeds, and that row's `solarAzimuth`
cell is simply missing. -/
theorem c9_counterexample :
    (hourly_to_dataframe mixedAzimuthBlock).isSome = true ∧
    (hourly_to_dataframe mixedAzimuthBlock).map
      (fun f => f.cell "solarAzimuth" 1) = some (none : Option Value) := by
  constructor
  · rfl
  · rfl

/-! ### Aggregation and join structure lemmas -/

theorem numCells_isSome {vs : List (Option Value)}
    (h : ∀ c ∈ vs, ∀ v, c = some v → ∃ q, v = Value.num q) :
    ∃ qs, numCells vs = some qs := by
  apply mapOpt_isSome
  intro v hv
  obtain ⟨c, hc_mem, hc_eq⟩ := List.mem_filterMap.mp hv
  obtain ⟨q, hq⟩ := h c hc_mem v hc_eq
  rw [hq]
  rfl

theorem aggColumn_isSome {tz : TZ} {idx : List ℚ} {days : List ℤ} {op : AggOp}
    {cells : List (Option Value)}
    (hnum : ∀ c ∈ cells, ∀ v, c = some v → ∃ q, v = Value.num q) :
    ∃ cs, aggColumn tz idx days op cells = some cs := by
  apply mapOpt_isSome
  intro day _
  have hbucket : ∀ c ∈ ((idx.zip cells).filter
      (fun p => localDay tz p.1 = day)).map Prod.snd,
      ∀ v, c = some v → ∃ q, v = Value.num q := by
    intro c hc v hv
    obtain ⟨p, hp_mem, hp_eq⟩ := List.mem_map.mp hc
    have hp_zip : p ∈ idx.zip cells := (List.mem_filter.mp hp_mem).1
    have : p.2 ∈ cells := (List.of_mem_zip hp_zip).2
    exact hnum p.2 this v (by rw [hp_eq]; exact hv)
  obtain ⟨qs, hqs⟩ := numCells_isSome hbucket
  rw [hqs]
  rfl

theorem map_fst_pairs {β γ : Type} (l : List (String × β)) (F : String × β → γ) :
    (l.map (fun c => (c.1, F c))).map Prod.fst = l.map Prod.fst := by
  induction l with
  | nil => rfl
  | cons a t ih => simp [ih]

theorem roundFrame2_colNames (f : Frame) :
    colNames (roundFrame2 f) = colNames f := by
  unfold roundFrame2 colNames
  exact map_fst_pairs _ _

theorem joinRaw_colNames (l r : Frame) :
    colNames (joinRaw l r) = colNames l ++ colNames r := by
  unfold joinRaw colNames
  rw [List.map_append]
  rw [map_fst_pairs, map_fst_pairs]

theorem contains_eq_false {l : List String} {a : String} (h : a ∉ l) :
    l.contains a = false := by
  cases hc : l.contains a with
  | false => rfl
  | true => exact absurd (List.elem_iff.mp hc) h

theorem contains_eq_true {l : List String} {a : String} (h : a ∈ l) :
    l.contains a = true :=
  List.elem_iff.mpr h

theorem joinFrames_of_disjoint {l r : Frame}
    (h : ∀ k ∈ colNames l, k ∉ colNames r) :
    joinFrames l r = some (joinRaw l r) := by
  unfold joinFrames
  have : (colNames l).any (fun k => (colNames r).contains k) = false := by
    rw [List.any_eq_false]
    intro k hk
    rw [contains_eq_false (h k hk)]
    simp
  rw [this]
  rfl

theorem resample_single_mean {f2 : Frame} {tcells : List (Option Value)}
    (hne : f2.index ≠ [])
    (htemp : List.lookup "temperature" f2.cols = some tcells)
    (hnum : ∀ c ∈ tcells, ∀ v, c = some v → ∃ q, v = Value.num q) :
    ∃ r, resample_agg f2 [("temperature", AggOp.mean)] = some r ∧
      colNames r = ["temperature"] := by
  cases hidx : f2.index with
  | nil => exact absurd hidx hne
  | cons t0 ts =>
    obtain ⟨cs, hcs⟩ := @aggColumn_isSome (f2.tz.getD utcTZ) f2.index
      (resampleDays (f2.tz.getD utcTZ) t0 ts) AggOp.mean tcells hnum
    rw [hidx] at hcs
    have hmo : mapOpt (fun a =>
        match List.lookup a.1 f2.cols with
        | none => none
        | some cells =>
          (aggColumn (f2.tz.getD utcTZ) (t0 :: ts)
              (resampleDays (f2.tz.getD utcTZ) t0 ts) a.2 cells).map
            (fun cs => (a.1, cs))) [("temperature", AggOp.mean)] =
        some [("temperature", cs)] := by
      simp only [mapOpt, htemp, hcs]
      rfl
    refine ⟨Frame.mk ((resampleDays (f2.tz.getD utcTZ) t0 ts).map (dayLabel (f2.tz.getD utcTZ))) f2.tz [("temperature", cs)], ?_, rfl⟩
    unfold resample_agg
    rw [hidx]
    simp only [hmo]

/-! ### C5: absent aggregation columns are skipped -/

/-- C5 counterexample: a forecast whose hourly block omits `solarGhi`
entirely and has `temperature` can still raise — here through the solar
flattening (`solar` present but all-null), so no daily table is returned. -/
theorem c5_counterexample :
    forecast_to_daily_dataframe tzdbUTC c5CexForecast = none ∧
    containsKey c5CexForecast "hourly" = true :=
  ⟨rfl, rfl⟩

/-- C5 (corrected): for a well-formed forecast whose hourly block converts
successfully (in particular, when no hourly record carries a `solar`
field), has a numeric `temperature` column and no `solarGhi` column, the
daily table is built without error, the `temperature` aggregate is joined
on, and no `solarGhi` column appears: aggregation keys absent from the
hourly table are silently skipped. -/
theorem c5_missing_ghi_skipped (tzdb : String → Option TZ) (d : Record)
    (daily hrecs : List Record) (ddf h : Frame) (tzname : String) (tz : TZ)
    (tcells : List (Option Value))
    (hdaily : getDatablock d "daily" = some daily)
    (hddf : datablock_to_dataframe daily = some ddf)
    (htz1 : List.lookup "timezone" d = some (Value.str tzname))
    (htz2 : tzdb tzname = some tz)
    (hhk : containsKey d "hourly" = true)
    (hhrecs : getDatablock d "hourly" = some hrecs)
    (hh : hourly_to_dataframe hrecs = some h)
    (hne : h.index ≠ [])
    (htemp : List.lookup "temperature" h.cols = some tcells)
    (hnum : ∀ c ∈ tcells, ∀ v, c = some v → ∃ q, v = Value.num q)
    (hnosg : "solarGhi" ∉ colNames h)
    (hdnt : "temperature" ∉ colNames ddf) :
    ∃ df, forecast_to_daily_dataframe tzdb d = some df ∧
      colNames df = colNames ddf ++ ["temperature"] ∧
      "temperature" ∈ colNames df ∧
      ("solarGhi" ∉ colNames ddf → "solarGhi" ∉ colNames df) := by
  have hcv1 : tz_convert ddf tz = some { ddf with tz := some tz } := by
    unfold tz_convert
    rw [datablock_tz hddf]
  have hcv2 : tz_convert h tz = some { h with tz := some tz } := by
    unfold tz_convert
    rw [hourly_tz hh]
  have hmemT : "temperature" ∈ colNames h := lookup_some_mem_fst htemp
  have hfilter : ([("temperature", AggOp.mean), ("solarGhi", AggOp.sum)].filter
      (fun a => (colNames { h with tz := some tz }).contains a.1)) =
      [("temperature", AggOp.mean)] := by
    have hcolEq : colNames { h with tz := some tz } = colNames h := rfl
    simp [hcolEq, hmemT, hnosg]
  obtain ⟨r, hres, hrcols⟩ := @resample_single_mean { h with tz := some tz }
    tcells (by
      show h.index ≠ []
      exact hne) htemp hnum
  have hdisj : ∀ k ∈ colNames { ddf with tz := some tz },
      k ∉ colNames (roundFrame2 r) := by
    intro k hk
    rw [roundFrame2_colNames, hrcols]
    intro hmem
    rw [List.mem_singleton] at hmem
    subst hmem
    exact hdnt hk
  have hjoin := joinFrames_of_disjoint hdisj
  refine ⟨joinRaw { ddf with tz := some tz } (roundFrame2 r), ?_, ?_, ?_, ?_⟩
  · unfold forecast_to_daily_dataframe
    simp only [hdaily, hddf, htz1, htz2, hcv1, hhk, if_true, hhrecs, hh, hcv2,
      hfilter, hres, hjoin]
  · rw [joinRaw_colNames, roundFrame2_colNames, hrcols]
    rfl
  · rw [joinRaw_colNames, roundFrame2_colNames, hrcols]
    simp
  · intro hdns
    rw [joinRaw_colNames, roundFrame2_colNames, hrcols]
    intro hmem
    cases List.mem_append.mp hmem with
    | inl hl => exact hdns hl
    | inr hr =>
      rw [List.mem_singleton] at hr
      exact absurd hr (by decide)

/-- C5 witness: a forecast whose hourly block has only `time` and a numeric
`temperature`. -/
theorem c5_missing_ghi_skipped_witness :
    ∃ df, forecast_to_daily_dataframe tzdbUTC c5WitForecast = some df ∧
      colNames df = colNames ({ index := [0], tz := some utcTZ, cols := [] } : Frame)
        ++ ["temperature"] ∧
      "temperature" ∈ colNames df ∧
      ("solarGhi" ∉ colNames ({ index := [0], tz := some utcTZ, cols := [] } : Frame) →
        "solarGhi" ∉ colNames df) :=
  c5_missing_ghi_skipped tzdbUTC c5WitForecast
    [[("time", Value.num 0)]]
    [[("time", Value.num 0), ("temperature", Value.num 5)]]
    { index := [0], tz := some utcTZ, cols := [] }
    { index := [0], tz := some utcTZ, cols := [("temperature", [some (Value.num 5)])] }
    "UTC" (constTZ 0) [some (Value.num 5)]
    rfl rfl rfl rfl rfl rfl rfl
    (by simp)
    rfl
    (by
      intro c hc v hv
      rw [List.mem_singleton] at hc
      subst hc
      injection hv with hv2
      exact ⟨5, hv2.symm⟩)
    (by decide)
    (by decide)

/-! ### Join characterization under a duplicate-free right index -/

theorem matchPositions_of_not_mem {t : ℚ} :
    ∀ {xs : List ℚ}, t ∉ xs → matchPositions t xs = []
  | [], _ => rfl
  | x :: xs, h => by
    have hx : ¬x = t := fun hEq => h (by rw [← hEq]; simp)
    have ht : t ∉ xs := fun hmem => h (by simp [hmem])
    unfold matchPositions
    rw [if_neg hx, matchPositions_of_not_mem ht]
    rfl

theorem idxOf?_eq_none_of_not_mem {t : ℚ} :
    ∀ {xs : List ℚ}, t ∉ xs → idxOf? t xs = none
  | [], _ => rfl
  | x :: xs, h => by
    have hx : ¬x = t := fun hEq => h (by rw [← hEq]; simp)
    have ht : t ∉ xs := fun hmem => h (by simp [hmem])
    unfold idxOf?
    rw [if_neg hx, idxOf?_eq_none_of_not_mem ht]
    rfl

theorem matchPositions_nodup {t : ℚ} :
    ∀ {xs : List ℚ}, xs.Nodup →
      matchPositions t xs =
        (match idxOf? t xs with
         | some j => [j]
         | none => []) := by
  intro xs
  induction xs with
  | nil => intro _; rfl
  | cons x xs ih =>
    intro hnd
    have hx_nin : x ∉ xs := (List.nodup_cons.mp hnd).1
    have hnd2 : xs.Nodup := (List.nodup_cons.mp hnd).2
    unfold matchPositions idxOf?
    by_cases hx : x = t
    · subst hx
      rw [if_pos rfl, if_pos rfl, matchPositions_of_not_mem hx_nin]
      rfl
    · rw [if_neg hx, if_neg hx, ih hnd2]
      cases hidx : idxOf? t xs with
      | some j => rfl
      | none => rfl

theorem range_map_getD {α β : Type} (l : List α) (dflt : α) (F : α → β) :
    (List.range l.length).map (fun i => F (l.getD i dflt)) = l.map F := by
  apply List.ext_get
  · simp
  · intro i h1 h2
    simp only [List.get_eq_getElem, List.getElem_map, List.getElem_range]
    congr 1
    rw [List.getD_eq_getElem?_getD]
    rw [List.getElem?_eq_getElem (by simpa using h2)]
    rfl

theorem flatMap_singletons {α β : Type} {l : List α} {f : α → List β}
    {g : α → β} (h : ∀ a ∈ l, f a = [g a]) : l.flatMap f = l.map g := by
  induction l with
  | nil => rfl
  | cons a t ih =>
    rw [List.flatMap_cons, h a (by simp), ih (fun a ha => h a (by simp [ha]))]
    rfl

theorem joinPositions_nodup (l r : Frame) (hn : r.index.Nodup) :
    joinPositions l r = (List.range l.index.length).map
      (fun i => (i, idxOf? (l.index.getD i 0) r.index)) := by
  unfold joinPositions
  apply flatMap_singletons
  intro i _
  rw [matchPositions_nodup hn]
  cases hidx : idxOf? (l.index.getD i 0) r.index with
  | some j => rfl
  | none => rfl

theorem joinRaw_nodup (l r : Frame) (hn : r.index.Nodup)
    (hcl : ∀ c ∈ l.cols, c.2.length = l.index.length) :
    joinRaw l r =
      { index := l.index, tz := l.tz,
        cols := l.cols ++ r.cols.map (fun c => (c.1, l.index.map (fun tv =>
          match idxOf? tv r.index with
          | some j => c.2.getD j none
          | none => none))) } := by
  unfold joinRaw
  rw [joinPositions_nodup l r hn]
  have hidx : ((List.range l.index.length).map
      (fun i => (i, idxOf? (l.index.getD i 0) r.index))).map
      (fun p => l.index.getD p.1 0) = l.index := by
    rw [List.map_map]
    have := range_map_getD l.index 0 (fun tv => tv)
    simpa using this
  have hleft : l.cols.map (fun c => (c.1,
      ((List.range l.index.length).map
        (fun i => (i, idxOf? (l.index.getD i 0) r.index))).map
        (fun p => c.2.getD p.1 none))) = l.cols := by
    have hstep : l.cols.map (fun c => (c.1,
        ((List.range l.index.length).map
          (fun i => (i, idxOf? (l.index.getD i 0) r.index))).map
          (fun p => c.2.getD p.1 none))) = l.cols.map (fun c => c) := by
      apply List.map_congr_left
      intro c hc
      rw [List.map_map]
      have h1 : ((fun (p : ℕ × Option ℕ) => c.2.getD p.1 none) ∘
          (fun i => (i, idxOf? (l.index.getD i 0) r.index))) =
          (fun i => c.2.getD i none) := rfl
      rw [h1]
      have h2 : (List.range l.index.length).map (fun i => c.2.getD i none) =
          c.2.map (fun v => v) := by
        rw [← hcl c hc]
        exact range_map_getD c.2 none (fun v => v)
      rw [h2]
      simp
    rw [hstep]
    simp
  have hright : ∀ cs : List (Option Value),
      ((List.range l.index.length).map
        (fun i => (i, idxOf? (l.index.getD i 0) r.index))).map
        (fun p => match p.2 with
          | some j => cs.getD j none
          | none => none) =
      l.index.map (fun tv =>
        match idxOf? tv r.index with
        | some j => cs.getD j none
        | none => none) := by
    intro cs
    rw [List.map_map]
    exact range_map_getD l.index 0 (fun tv =>
      match idxOf? tv r.index with
      | some j => cs.getD j none
      | none => none)
  rw [hidx, hleft]
  congr 1
  congr 1
  apply List.map_congr_left
  intro c _
  rw [hright c.2]

/-! ### Positions of kept solar rows -/

theorem get?_zip {α β : Type} {l1 : List α} {l2 : List β} {i : ℕ} {a : α}
    {b : β} (h1 : l1.get? i = some a) (h2 : l2.get? i = some b) :
    (l1.zip l2).get? i = some (a, b) := by
  induction l1 generalizing l2 i with
  | nil => cases h1
  | cons x xs ih =>
    cases l2 with
    | nil => cases h2
    | cons y ys =>
      cases i with
      | zero =>
        injection h1 with h1
        injection h2 with h2
        subst h1
        subst h2
        rfl
      | succ n => exact ih h1 h2

theorem filterMap_fst_sublist (sel : Record → Option Value) :
    ∀ L : List (ℚ × Record),
      ((L.filterMap (fun p => (sel p.2).map (fun w => (p.1, w)))).map
        Prod.fst).Sublist (L.map Prod.fst)
  | [] => by simp
  | hd :: tl => by
    cases hhd : sel hd.2 with
    | some w =>
      simpa [List.filterMap_cons, hhd] using
        (filterMap_fst_sublist sel tl).cons₂ hd.1
    | none =>
      simpa [List.filterMap_cons, hhd] using
        (filterMap_fst_sublist sel tl).cons hd.1

theorem sel_positions {sel : Record → Option Value} :
    ∀ (L : List (ℚ × Record)), (L.map Prod.fst).Nodup →
    ∀ i t r, L.get? i = some (t, r) →
      ((∀ v, sel r = some v →
        ∃ j, idxOf? t ((L.filterMap
            (fun p => (sel p.2).map (fun w => (p.1, w)))).map Prod.fst) = some j ∧
          (L.filterMap (fun p => (sel p.2).map (fun w => (p.1, w)))).get? j =
            some (t, v)) ∧
       (sel r = none →
        idxOf? t ((L.filterMap
            (fun p => (sel p.2).map (fun w => (p.1, w)))).map Prod.fst) = none)) := by
  intro L
  induction L with
  | nil => intro _ i t r h; cases h
  | cons hd tl ih =>
    intro hnd i t r hget
    have hnd2 : (tl.map Prod.fst).Nodup := (List.nodup_cons.mp (by simpa using hnd)).2
    have hd_nin : hd.1 ∉ tl.map Prod.fst := (List.nodup_cons.mp (by simpa using hnd)).1
    cases i with
    | zero =>
      obtain ⟨th, rh⟩ := hd
      injection hget with h0
      injection h0 with h0a h0b
      subst h0a
      subst h0b
      constructor
      · intro v hv
        refine ⟨0, ?_, ?_⟩
        · simp [List.filterMap_cons, hv, idxOf?]
        · simp [List.filterMap_cons, hv]
      · intro hv
        have hsub := (filterMap_fst_sublist sel tl).subset
        apply idxOf?_eq_none_of_not_mem
        simp only [List.filterMap_cons, hv, Option.map_none]
        intro hmem
        exact hd_nin (hsub hmem)
    | succ n =>
      have hget2 : tl.get? n = some (t, r) := hget
      have htr := ih hnd2 n t r hget2
      have ht_mem : t ∈ tl.map Prod.fst := by
        have : (t, r) ∈ tl := List.get?_mem hget2
        exact List.mem_map.mpr ⟨(t, r), this, rfl⟩
      have hne : ¬hd.1 = t := fun hEq => hd_nin (hEq ▸ ht_mem)
      cases hhd : sel hd.2 with
      | some w =>
        constructor
        · intro v hv
          obtain ⟨j, hj1, hj2⟩ := htr.1 v hv
          refine ⟨j + 1, ?_, ?_⟩
          · simp [List.filterMap_cons, hhd, idxOf?, hne, hj1]
          · simpa [List.filterMap_cons, hhd] using hj2
        · intro hv
          have h2 := htr.2 hv
          simp [List.filterMap_cons, hhd, idxOf?, hne, h2]
      | none =>
        constructor
        · intro v hv
          obtain ⟨j, hj1, hj2⟩ := htr.1 v hv
          exact ⟨j, by simpa [List.filterMap_cons, hhd] using hj1,
            by simpa [List.filterMap_cons, hhd] using hj2⟩
        · intro hv
          have h2 := htr.2 hv
          simpa [List.filterMap_cons, hhd] using h2

theorem mapOpt_asObjPair_fst {P : List (ℚ × Value)} {oP : List (ℚ × Record)}
    (h : mapOpt asObjPair P = some oP) : oP.map Prod.fst = P.map Prod.fst := by
  induction P generalizing oP with
  | nil =>
    injection h with h2
    rw [← h2]
    rfl
  | cons a t ih =>
    unfold mapOpt at h
    cases hfa : asObjPair a with
    | none =>
      simp only [hfa] at h
      cases h
    | some b =>
      cases hmt : mapOpt asObjPair t with
      | none =>
        simp only [hfa, hmt] at h
        cases h
      | some bs =>
        simp only [hfa, hmt] at h
        injection h with h2
        rw [← h2]
        have hfst : b.1 = a.1 := by
          obtain ⟨ta, va⟩ := a
          cases va with
          | obj fs => injection hfa with h3; rw [← h3]
          | null => cases hfa
          | num q => cases hfa
          | str s2 => cases hfa
          | arr xs => cases hfa
        simp [hfst, ih hmt]

theorem cellOf_mem_keys {r : Record} {k : String} {v : Value}
    (h : cellOf r k = some v) : k ∈ r.map Prod.fst := by
  unfold cellOf at h
  cases hl : List.lookup k r with
  | none =>
    rw [hl] at h
    cases h
  | some w => exact lookup_some_mem_fst hl

theorem map_fst_keyed {β : Type} (l : List String) (G : String → β) :
    (l.map (fun k => (k, G k))).map Prod.fst = l := by
  induction l with
  | nil => rfl
  | cons a t ih => simp [ih]

/-! ### C2: solar flattening -/

/-- C2 (corrected): for an hourly block with pairwise-distinct `time`
values, whose solar cells (when present) are objects, whose present azimuth
values are numeric, whose flattened solar column names collide neither with
each other on the `solarAzimuth`/`solarGhi` names nor with existing
top-level columns, and which contains a record with
`solar = {azimuth: 270, ghi: 500}`: `hourly_to_dataframe` succeeds, keeps
one row per input record, drops the nested `solar` column, gives that
record's row `solarAzimuth = (270 + 90) mod 360 = 0` and `solarGhi = 500`,
and gives every solar-less record missing values in both flattened columns.
(Without distinct times the claim fails: the join multiplies duplicated
rows; see the counterexample.) -/
theorem c2_solar_flattening (d : List Record) (times : List ℚ)
    (objPairs : List (ℚ × Record)) (azCells : List (Option Value))
    (p : ℕ) (tp : ℚ) (rp sfs : Record)
    (ht : blockTimes d = some times)
    (hnd : times.Nodup)
    (hobj : mapOpt asObjPair
      (droppedSolar times (d.map (fun r => cellOf r "solar"))) = some objPairs)
    (haz : mapOpt azTransform objPairs = some azCells)
    (hp : d.get? p = some rp)
    (htp : times.get? p = some tp)
    (hsol : cellOf rp "solar" = some (Value.obj sfs))
    (hsaz : cellOf sfs "azimuth" = some (Value.num 270))
    (hsghi : cellOf sfs "ghi" = some (Value.num 500))
    (huniqA : ∀ k ∈ unionKeys (objPairs.map Prod.snd),
      "solar" ++ pyTitle k = "solarAzimuth" → k = "azimuth")
    (huniqG : ∀ k ∈ unionKeys (objPairs.map Prod.snd),
      "solar" ++ pyTitle k = "solarGhi" → k = "ghi")
    (hfresh : ∀ k ∈ unionKeys (objPairs.map Prod.snd),
      ("solar" ++ pyTitle k) ∉ unionKeys d) :
    ∃ df, hourly_to_dataframe d = some df ∧
      df.index = times ∧
      "solar" ∉ colNames df ∧
      df.cell "solarAzimuth" p = some (Value.num 0) ∧
      df.cell "solarGhi" p = some (Value.num 500) ∧
      (∀ q tq rq, d.get? q = some rq → times.get? q = some tq →
        cellOf rq "solar" = none →
        df.cell "solarAzimuth" q = none ∧ df.cell "solarGhi" q = none) := by
  have hlen : times.length = d.length := mapOpt_length ht
  have htime_mem : "time" ∈ unionKeys d := by
    obtain ⟨b, hb, _⟩ := mapOpt_get ht p rp hp
    have hv2 : ∃ v, cellOf rp "time" = some v := by
      cases hcv : cellOf rp "time" with
      | none => rw [hcv] at hb; cases hb
      | some v => exact ⟨v, rfl⟩
    obtain ⟨v, hv⟩ := hv2
    exact mem_unionKeys.mpr ⟨rp, List.get?_mem hp, cellOf_mem_keys hv⟩
  have hsolar_mem : "solar" ∈ unionKeys d :=
    mem_unionKeys.mpr ⟨rp, List.get?_mem hp, cellOf_mem_keys hsol⟩
  set F0 : Frame := Frame.mk times (some utcTZ)
    (((unionKeys d).filter (fun k => k ≠ "time")).map
      (fun k => (k, d.map (fun r => cellOf r k)))) with hF0
  have hdb : datablock_to_dataframe d = some F0 := by
    unfold datablock_to_dataframe
    rw [if_pos htime_mem]
    simp only [ht]
  have hF0idx : F0.index = times := rfl
  have hF0tz : F0.tz = some utcTZ := rfl
  have hlook : List.lookup "solar" F0.cols =
      some (d.map (fun r => cellOf r "solar")) := by
    rw [hF0]
    exact lookup_map_self _ (by
      rw [List.mem_filter]
      exact ⟨hsolar_mem, by decide⟩)
  have hzip_fst : (times.zip d).map Prod.fst = times :=
    List.map_fst_zip times d (by rw [hlen])
  have hznd : ((times.zip d).map Prod.fst).Nodup := by
    rw [hzip_fst]
    exact hnd
  have hPL : droppedSolar times (d.map (fun r => cellOf r "solar")) =
      (times.zip d).filterMap
        (fun q => (cellOf q.2 "solar").map (fun w => (q.1, w))) := by
    unfold droppedSolar
    rw [List.zip_map_right, List.filterMap_map]
    rfl
  have hLp : (times.zip d).get? p = some (tp, rp) := get?_zip htp hp
  have hpos := @sel_positions (fun r => cellOf r "solar")
    (times.zip d) hznd p tp rp hLp
  obtain ⟨jp, hj1, hj2⟩ := hpos.1 (Value.obj sfs) hsol
  rw [← hPL] at hj1 hj2
  have hfst : objPairs.map Prod.fst =
      (droppedSolar times (d.map (fun r => cellOf r "solar"))).map Prod.fst :=
    mapOpt_asObjPair_fst hobj
  obtain ⟨bp, hbp, hbp2⟩ := mapOpt_get hobj jp (tp, Value.obj sfs) hj2
  have hbp_eq : bp = (tp, sfs) := by
    injection hbp with h3
    exact h3.symm
  subst hbp_eq
  have hsfs_mem : sfs ∈ objPairs.map Prod.snd :=
    List.mem_map.mpr ⟨(tp, sfs), List.get?_mem hbp2, rfl⟩
  have haz_mem : "azimuth" ∈ unionKeys (objPairs.map Prod.snd) :=
    mem_unionKeys.mpr ⟨sfs, hsfs_mem, cellOf_mem_keys hsaz⟩
  have hghi_mem : "ghi" ∈ unionKeys (objPairs.map Prod.snd) :=
    mem_unionKeys.mpr ⟨sfs, hsfs_mem, cellOf_mem_keys hsghi⟩
  obtain ⟨bz, hbz, hbz2⟩ := mapOpt_get haz jp (tp, sfs) hbp2
  have hbz_eq : bz = some (Value.num (qmod (270 + 90) 360)) := by
    simp only [azTransform, hsaz] at hbz
    injection hbz with h4
    exact h4.symm
  subst hbz_eq
  set sF : Frame := solarFrameOf (some utcTZ) objPairs azCells with hsF
  have hsFidx : sF.index =
      (droppedSolar times (d.map (fun r => cellOf r "solar"))).map Prod.fst := by
    rw [hsF]
    unfold solarFrameOf
    exact hfst
  have hsFnd : sF.index.Nodup := by
    rw [hsFidx, hPL]
    exact hznd.sublist
      (filterMap_fst_sublist (fun r => cellOf r "solar") (times.zip d))
  have hcl : ∀ c ∈ F0.cols, c.2.length = F0.index.length := by
    intro c hc
    rw [hF0] at hc
    obtain ⟨k, _, hk_eq⟩ := List.mem_map.mp hc
    rw [← hk_eq, hF0idx]
    simp [hlen]
  have hcolF0 : colNames F0 = (unionKeys d).filter (fun k => k ≠ "time") := by
    rw [hF0]
    unfold colNames
    exact map_fst_keyed _ _
  have hcolr : colNames sF =
      (unionKeys (objPairs.map Prod.snd)).map (fun k => "solar" ++ pyTitle k) := by
    rw [hsF]
    unfold solarFrameOf colNames
    rw [List.map_map]
    rfl
  have hdisj : ∀ k ∈ colNames F0, k ∉ colNames sF := by
    intro k hk hmem
    rw [hcolr] at hmem
    obtain ⟨k2, hk2_mem, hk2_eq⟩ := List.mem_map.mp hmem
    apply hfresh k2 hk2_mem
    rw [hk2_eq]
    rw [hcolF0] at hk
    exact (List.mem_filter.mp hk).1
  have hjoin := joinFrames_of_disjoint hdisj
  have hjr := joinRaw_nodup F0 sF hsFnd hcl
  set rmapped : List (String × List (Option Value)) := sF.cols.map
    (fun c => (c.1, F0.index.map (fun tv =>
      match idxOf? tv sF.index with
      | some j => c.2.getD j none
      | none => none))) with hrm
  have hrm2 : rmapped = (unionKeys (objPairs.map Prod.snd)).map
      (fun k => ("solar" ++ pyTitle k, F0.index.map (fun tv =>
        match idxOf? tv sF.index with
        | some j => (if k = "azimuth" then azCells
            else objPairs.map (fun p2 => cellOf p2.2 k)).getD j none
        | none => none))) := by
    rw [hrm, hsF]
    unfold solarFrameOf
    rw [List.map_map]
    rfl
  have hfcols : ((F0.cols ++ rmapped).filter (fun c => c.1 ≠ "solar")) =
      ((F0.cols ++ rmapped).filter (fun c => c.1 ≠ "solar")) := rfl
  have hlaz : List.lookup "solarAzimuth"
      ((F0.cols ++ rmapped).filter (fun c => c.1 ≠ "solar")) =
      some (F0.index.map (fun tv =>
        match idxOf? tv sF.index with
        | some j => azCells.getD j none
        | none => none)) := by
    rw [lookup_filter_ne (by decide)]
    rw [lookup_append]
    have hnotl : List.lookup "solarAzimuth" F0.cols = none := by
      apply lookup_none_of_not_mem
      intro hmem
      apply hfresh "azimuth" haz_mem
      have hAz : "solar" ++ pyTitle "azimuth" = "solarAzimuth" := by decide
      rw [hAz]
      have hmem2 : "solarAzimuth" ∈ colNames F0 := hmem
      rw [hcolF0] at hmem2
      exact (List.mem_filter.mp hmem2).1
    rw [hnotl, hrm2]
    have hAz : ("solarAzimuth" : String) = "solar" ++ pyTitle "azimuth" := by
      decide
    rw [hAz]
    rw [lookup_map_of_unique (fun k => "solar" ++ pyTitle k) _ haz_mem huniqA]
    rw [if_pos rfl]
  have hlghi : List.lookup "solarGhi"
      ((F0.cols ++ rmapped).filter (fun c => c.1 ≠ "solar")) =
      some (F0.index.map (fun tv =>
        match idxOf? tv sF.index with
        | some j => (objPairs.map (fun p2 => cellOf p2.2 "ghi")).getD j none
        | none => none)) := by
    rw [lookup_filter_ne (by decide)]
    rw [lookup_append]
    have hnotl : List.lookup "solarGhi" F0.cols = none := by
      apply lookup_none_of_not_mem
      intro hmem
      apply hfresh "ghi" hghi_mem
      have hG : "solar" ++ pyTitle "ghi" = "solarGhi" := by decide
      rw [hG]
      have hmem2 : "solarGhi" ∈ colNames F0 := hmem
      rw [hcolF0] at hmem2
      exact (List.mem_filter.mp hmem2).1
    rw [hnotl, hrm2]
    have hG : ("solarGhi" : String) = "solar" ++ pyTitle "ghi" := by decide
    rw [hG]
    rw [lookup_map_of_unique (fun k => "solar" ++ pyTitle k) _ hghi_mem huniqG]
    rw [if_neg (by decide)]
  have htp2 : times[p]? = some tp := by
    rw [← List.get?_eq_getElem?]
    exact htp
  have hidxp : idxOf? tp sF.index = some jp := by
    rw [hsFidx]
    exact hj1
  refine ⟨Frame.mk F0.index F0.tz
      ((F0.cols ++ rmapped).filter (fun c => c.1 ≠ "solar")),
    ?_, hF0idx, ?_, ?_, ?_, ?_⟩
  · -- the pipeline evaluates to the filtered joined frame
    unfold hourly_to_dataframe
    simp only [hdb, hlook, hF0idx, hobj, if_pos haz_mem, haz, hF0tz, ← hsF,
      hjoin, hjr]
  · -- the nested solar column is dropped
    intro hmem
    obtain ⟨c, hc, hceq⟩ := List.mem_map.mp hmem
    have hcne := (List.mem_filter.mp hc).2
    rw [hceq] at hcne
    simp at hcne
  · -- the azimuth cell of row p
    unfold Frame.cell
    simp only [hlaz]
    rw [List.getD_eq_getElem?_getD, List.getElem?_map]
    try rw [hF0idx]
    rw [htp2]
    simp only [Option.map_some', Option.getD_some]
    simp only [hidxp]
    rw [List.getD_eq_getElem?_getD, ← List.get?_eq_getElem?, hbz2]
    have hq0 : qmod (270 + 90) 360 = 0 := by decide
    rw [hq0]
    rfl
  · -- the ghi cell of row p
    unfold Frame.cell
    simp only [hlghi]
    rw [List.getD_eq_getElem?_getD, List.getElem?_map]
    try rw [hF0idx]
    rw [htp2]
    simp only [Option.map_some', Option.getD_some]
    simp only [hidxp]
    rw [List.getD_eq_getElem?_getD, List.getElem?_map]
    have hbp3 : objPairs[jp]? = some (tp, sfs) := by
      rw [← List.get?_eq_getElem?]
      exact hbp2
    rw [hbp3]
    simp only [Option.map_some', Option.getD_some]
    exact hsghi
  · -- rows without solar keep missing cells
    intro q tq rq hq htq hqsol
    have hLq : (times.zip d).get? q = some (tq, rq) := get?_zip htq hq
    have hnone := (@sel_positions (fun r => cellOf r "solar")
      (times.zip d) hznd q tq rq hLq).2 hqsol
    rw [← hPL] at hnone
    have hidxq : idxOf? tq sF.index = none := by
      rw [hsFidx]
      exact hnone
    have htq2 : times[q]? = some tq := by
      rw [← List.get?_eq_getElem?]
      exact htq
    constructor
    · unfold Frame.cell
      simp only [hlaz]
      rw [List.getD_eq_getElem?_getD, List.getElem?_map]
      try rw [hF0idx]
      rw [htq2]
      simp only [Option.map_some', Option.getD_some]
      simp only [hidxq]
    · unfold Frame.cell
      simp only [hlghi]
      rw [List.getD_eq_getElem?_getD, List.getElem?_map]
      try rw [hF0idx]
      rw [htq2]
      simp only [Option.map_some', Option.getD_some]
      simp only [hidxq]

/-- C2 counterexample: with a duplicated `time` instant the index join
multiplies rows — a 2-record block (both records carrying
`solar = {azimuth: 270, ghi: 500}`) yields a 4-row table, not one row per
input record as the claim states. -/
theorem c2_counterexample :
    (hourly_to_dataframe dupTimeBlock).map (fun f => f.index.length) = some 4 ∧
    dupTimeBlock.length = 2 :=
  ⟨rfl, rfl⟩

/-- C2 witness: a two-record block, the first with
`solar = {azimuth: 270, ghi: 500}` and the second without solar. -/
theorem c2_solar_flattening_witness :
    ∃ df, hourly_to_dataframe c2WitBlock = some df ∧
      df.index = [0, 3600] ∧
      "solar" ∉ colNames df ∧
      df.cell "solarAzimuth" 0 = some (Value.num 0) ∧
      df.cell "solarGhi" 0 = some (Value.num 500) ∧
      (∀ q tq rq, c2WitBlock.get? q = some rq →
        [(0 : ℚ), 3600].get? q = some tq →
        cellOf rq "solar" = none →
        df.cell "solarAzimuth" q = none ∧ df.cell "solarGhi" q = none) :=
  c2_solar_flattening c2WitBlock [0, 3600]
    [((0 : ℚ), [("azimuth", Value.num 270), ("ghi", Value.num 500)])]
    [some (Value.num (qmod (270 + 90) 360))]
    0 0
    [("time", Value.num 0),
     ("solar", Value.obj [("azimuth", Value.num 270), ("ghi", Value.num 500)])]
    [("azimuth", Value.num 270), ("ghi", Value.num 500)]
    rfl (by decide) rfl rfl rfl rfl rfl rfl rfl
    (by decide) (by decide) (by decide)


/-! ### C1: the Chicago three-day aggregation scenario -/

theorem selSnd_cons (p : ℚ → Bool) (t : ℚ) (c : Option Value)
    (ts : List ℚ) (cs : List (Option Value)) :
    selSnd p (t :: ts) (c :: cs) =
      if p t then c :: selSnd p ts cs else selSnd p ts cs := rfl

theorem filter_zip_map_snd (tz : TZ) (day : ℤ) :
    ∀ (ts : List ℚ) (cs : List (Option Value)),
      ((ts.zip cs).filter (fun q => decide (localDay tz q.1 = day))).map Prod.snd
        = selSnd (fun tv => decide (localDay tz tv = day)) ts cs := by
  intro ts
  induction ts with
  | nil => intro cs; rfl
  | cons t ts ih =>
    intro cs
    cases cs with
    | nil => rfl
    | cons c cs =>
      show ((((t, c) :: ts.zip cs).filter
          (fun q => decide (localDay tz q.1 = day))).map Prod.snd) = _
      rw [List.filter_cons]
      cases hp : decide (localDay tz t = day) with
      | true =>
        rw [if_pos rfl, List.map_cons, ih cs]
        simp only [selSnd_cons, hp]
        rfl
      | false =>
        rw [if_neg (by simp), ih cs]
        simp only [selSnd_cons, hp]
        rfl

theorem aggColumn_eq (tz : TZ) (idx : List ℚ) (days : List ℤ) (op : AggOp)
    (cells : List (Option Value)) :
    aggColumn tz idx days op cells =
      mapOpt (fun day =>
        (numCells (selSnd (fun tv => decide (localDay tz tv = day)) idx cells)).map
          (applyAgg op)) days := by
  unfold aggColumn
  have h : (fun (day : ℤ) =>
      (numCells (((idx.zip cells).filter
        (fun p => decide (localDay tz p.1 = day))).map Prod.snd)).map (applyAgg op)) =
      (fun (day : ℤ) =>
        (numCells (selSnd (fun tv => decide (localDay tz tv = day)) idx cells)).map
          (applyAgg op)) := by
    funext day
    rw [filter_zip_map_snd tz day idx cells]
  exact congrArg (fun F => mapOpt F days) h

theorem range_map_cons {α : Type} (n : ℕ) (f : ℕ → α) :
    (List.range (n + 1)).map f = f 0 :: (List.range n).map (fun i => f (i + 1)) := by
  rw [List.range_succ_eq_map, List.map_cons, List.map_map]
  rfl

theorem mapOpt_map_some {α β γ : Type} {f : β → Option γ} {G : α → β} {h : α → γ}
    (H : ∀ a, f (G a) = some (h a)) :
    ∀ l : List α, mapOpt f (l.map G) = some (l.map h) := by
  intro l
  induction l with
  | nil => rfl
  | cons a l ih =>
    show mapOpt f (G a :: l.map G) = _
    unfold mapOpt
    rw [H a, ih]
    rfl

theorem foldl_recordKeys_const {ks : List String} :
    ∀ {rs : List Record}, (∀ r ∈ rs, recordKeys ks r = ks) →
      rs.foldl recordKeys ks = ks := by
  intro rs
  induction rs with
  | nil => intro _; rfl
  | cons r rest ih =>
    intro h
    rw [List.foldl_cons, h r (by simp)]
    exact ih (fun r2 hr2 => h r2 (by simp [hr2]))

theorem map_comp_congr {α β γ : Type} {G : α → β} {F : β → γ} {h : α → γ}
    (H : ∀ a, F (G a) = h a) (l : List α) : (l.map G).map F = l.map h := by
  rw [List.map_map]
  exact List.map_congr_left (fun a _ => H a)

theorem resample_agg_cons (t0 : ℚ) (ts : List ℚ) (tz : Option TZ)
    (cols : List (String × List (Option Value))) (aggs : List (String × AggOp)) :
    resample_agg ⟨t0 :: ts, tz, cols⟩ aggs =
      match mapOpt (fun a =>
          match List.lookup a.1 cols with
          | none => none
          | some cells =>
            (aggColumn (tz.getD utcTZ) (t0 :: ts)
                (resampleDays (tz.getD utcTZ) t0 ts) a.2 cells).map
              (fun cs => (a.1, cs))) aggs with
      | none => none
      | some cols2 =>
          some ⟨(resampleDays (tz.getD utcTZ) t0 ts).map (dayLabel (tz.getD utcTZ)),
                tz, cols2⟩ := rfl


set_option maxHeartbeats 1000000 in
theorem c1_aggT (t : ℕ → ℚ) : aggColumn (constTZ (-21600)) ((21600 : ℚ) :: c1Tail)
    [0, 1, 2] AggOp.mean
    ((List.range 72).map (fun (i : ℕ) => some (Value.num (t i)))) =
    some [some (Value.num (dayMean t 0)), some (Value.num (dayMean t 24)),
          some (Value.num (dayMean t 48))] := by
  rw [aggColumn_eq]
  rfl

set_option maxHeartbeats 1000000 in
theorem c1_aggG (g : ℕ → ℚ) : aggColumn (constTZ (-21600)) ((21600 : ℚ) :: c1Tail)
    [0, 1, 2] AggOp.sum
    ((List.range 72).map (fun (i : ℕ) => some (Value.num (g i)))) =
    some [some (Value.num (daySum g 0)), some (Value.num (daySum g 24)),
          some (Value.num (daySum g 48))] := by
  rw [aggColumn_eq]
  rfl

set_option maxHeartbeats 1000000 in
theorem c1_days : resampleDays (constTZ (-21600)) 21600 c1Tail = [0, 1, 2] := rfl

theorem mapOpt_pair {α β : Type} {f : α → Option β} {A B : α} {a b : β}
    (hA : f A = some a) (hB : f B = some b) : mapOpt f [A, B] = some [a, b] := by
  show (match f A, mapOpt f [B] with
        | some x, some xs => some (x :: xs)
        | _, _ => none) = some [a, b]
  rw [hA]
  show (match (some a : Option β), (match f B, (some [] : Option (List β)) with
        | some x, some xs => some (x :: xs)
        | _, _ => none) with
        | some x, some xs => some (x :: xs)
        | _, _ => none) = some [a, b]
  rw [hB]

set_option maxHeartbeats 1000000 in
theorem c1_moT (t g : ℕ → ℚ) :
    (fun (a : String × AggOp) =>
        match List.lookup a.1 (c1ColsMap t g) with
        | none => none
        | some cells =>
          (aggColumn ((some (constTZ (-21600))).getD utcTZ) ((21600 : ℚ) :: c1Tail)
              (resampleDays ((some (constTZ (-21600))).getD utcTZ) 21600 c1Tail) a.2 cells).map
            (fun cs => (a.1, cs))) ("temperature", AggOp.mean)
      = some ("temperature",
          [some (Value.num (dayMean t 0)), some (Value.num (dayMean t 24)),
           some (Value.num (dayMean t 48))]) := by
  show (aggColumn ((some (constTZ (-21600))).getD utcTZ) ((21600 : ℚ) :: c1Tail)
      (resampleDays ((some (constTZ (-21600))).getD utcTZ) 21600 c1Tail) AggOp.mean
      ((List.range 72).map (fun (i : ℕ) => some (Value.num (t i))))).map
      (fun cs => (("temperature" : String), cs)) = _
  simp only [Option.getD_some]
  simp only [c1_days]
  rw [c1_aggT t]
  rfl

set_option maxHeartbeats 1000000 in
theorem c1_moG (t g : ℕ → ℚ) :
    (fun (a : String × AggOp) =>
        match List.lookup a.1 (c1ColsMap t g) with
        | none => none
        | some cells =>
          (aggColumn ((some (constTZ (-21600))).getD utcTZ) ((21600 : ℚ) :: c1Tail)
              (resampleDays ((some (constTZ (-21600))).getD utcTZ) 21600 c1Tail) a.2 cells).map
            (fun cs => (a.1, cs))) ("solarGhi", AggOp.sum)
      = some ("solarGhi",
          [some (Value.num (daySum g 0)), some (Value.num (daySum g 24)),
           some (Value.num (daySum g 48))]) := by
  show (aggColumn ((some (constTZ (-21600))).getD utcTZ) ((21600 : ℚ) :: c1Tail)
      (resampleDays ((some (constTZ (-21600))).getD utcTZ) 21600 c1Tail) AggOp.sum
      ((List.range 72).map (fun (i : ℕ) => some (Value.num (g i))))).map
      (fun cs => (("solarGhi" : String), cs)) = _
  simp only [Option.getD_some]
  simp only [c1_days]
  rw [c1_aggG g]
  rfl

set_option maxHeartbeats 1000000 in
theorem c1_mo (t g : ℕ → ℚ) :
    mapOpt (fun (a : String × AggOp) =>
        match List.lookup a.1 (c1ColsMap t g) with
        | none => none
        | some cells =>
          (aggColumn ((some (constTZ (-21600))).getD utcTZ) ((21600 : ℚ) :: c1Tail)
              (resampleDays ((some (constTZ (-21600))).getD utcTZ) 21600 c1Tail) a.2 cells).map
            (fun cs => (a.1, cs)))
      [("temperature", AggOp.mean), ("solarGhi", AggOp.sum)] =
    some [("temperature",
            [some (Value.num (dayMean t 0)), some (Value.num (dayMean t 24)),
             some (Value.num (dayMean t 48))]),
          ("solarGhi",
            [some (Value.num (daySum g 0)), some (Value.num (daySum g 24)),
             some (Value.num (daySum g 48))])] :=
  mapOpt_pair (c1_moT t g) (c1_moG t g)


set_option maxHeartbeats 1000000 in
theorem c1_rs (t g : ℕ → ℚ) : resample_agg
    { index := (21600 : ℚ) :: c1Tail,
      tz := some (constTZ (-21600)),
      cols := c1ColsMap t g }
    [("temperature", AggOp.mean), ("solarGhi", AggOp.sum)] =
    some { index := [21600, 108000, 194400],
           tz := some (constTZ (-21600)),
           cols := [("temperature",
                      [some (Value.num (dayMean t 0)), some (Value.num (dayMean t 24)),
                       some (Value.num (dayMean t 48))]),
                    ("solarGhi",
                      [some (Value.num (daySum g 0)), some (Value.num (daySum g 24)),
                       some (Value.num (daySum g 48))])] } := by
  rw [resample_agg_cons]
  simp only [c1_mo t g]
  simp only [Option.getD_some]
  simp only [c1_days]
  rfl

theorem c1_idxcons : (List.range 72).map (fun (i : ℕ) => (21600 + 3600 * (i : ℚ)))
    = (21600 : ℚ) :: c1Tail := by
  rw [show (72 : ℕ) = 71 + 1 from rfl,
      range_map_cons 71 (fun (i : ℕ) => (21600 + 3600 * (i : ℚ)))]
  rw [show (21600 + 3600 * ((0 : ℕ) : ℚ)) = 21600 by norm_num]
  exact congrArg (List.cons (21600 : ℚ))
    (show (List.range 71).map (fun (i : ℕ) => 21600 + 3600 * ((i + 1 : ℕ) : ℚ))
        = (List.range 71).map (fun (i : ℕ) => 25200 + 3600 * (i : ℚ)) from
      List.map_congr_left (fun i _ => by push_cast; ring))

set_option maxHeartbeats 1000000 in
theorem c1_db (t g : ℕ → ℚ) : datablock_to_dataframe ((List.range 72).map (c1Rec t g)) =
    some { index := (21600 : ℚ) :: c1Tail,
           tz := some utcTZ,
           cols := c1ColsMap t g } := by
  have huk : unionKeys ((List.range 72).map (c1Rec t g))
      = ["time", "temperature", "solarGhi"] := by
    unfold unionKeys
    rw [show (72 : ℕ) = 71 + 1 from rfl, range_map_cons 71 (c1Rec t g), List.foldl_cons]
    rw [show recordKeys [] (c1Rec t g 0) = ["time", "temperature", "solarGhi"] from rfl]
    apply foldl_recordKeys_const
    intro r hr
    obtain ⟨i, hi, rfl⟩ := List.mem_map.mp hr
    rfl
  have hbt : blockTimes ((List.range 72).map (c1Rec t g)) =
      some ((List.range 72).map (fun (i : ℕ) => (21600 + 3600 * (i : ℚ)))) := by
    unfold blockTimes
    exact @mapOpt_map_some ℕ Record ℚ (fun r => (cellOf r "time").bind asNum)
      (c1Rec t g) (fun (i : ℕ) => (21600 + 3600 * (i : ℚ))) (fun i => rfl) (List.range 72)
  unfold datablock_to_dataframe
  rw [huk, if_pos (by decide)]
  simp only [hbt]
  rw [show (["time", "temperature", "solarGhi"].filter (fun k => k ≠ "time"))
      = ["temperature", "solarGhi"] from rfl]
  simp only [List.map_cons, List.map_nil]
  rw [@map_comp_congr ℕ Record (Option Value) (c1Rec t g)
        (fun r => cellOf r "temperature") (fun (i : ℕ) => some (Value.num (t i)))
        (fun i => rfl) (List.range 72)]
  rw [@map_comp_congr ℕ Record (Option Value) (c1Rec t g)
        (fun r => cellOf r "solarGhi") (fun (i : ℕ) => some (Value.num (g i)))
        (fun i => rfl) (List.range 72)]
  rw [c1_idxcons]
  rfl

set_option maxHeartbeats 1000000 in
theorem c1_hh (t g : ℕ → ℚ) : hourly_to_dataframe ((List.range 72).map (c1Rec t g)) =
    some { index := (21600 : ℚ) :: c1Tail,
           tz := some utcTZ,
           cols := c1ColsMap t g } := by
  unfold hourly_to_dataframe
  simp only [c1_db t g]
  rfl

set_option maxHeartbeats 1000000 in
theorem c1_hex (t g : ℕ → ℚ) : getDatablock (c1Forecast t g) "hourly"
    = some ((List.range 72).map (c1Rec t g)) := by
  unfold getDatablock
  simp only [show List.lookup "hourly" (c1Forecast t g)
      = some (Value.obj [("data", Value.arr (c1HourlyBlock t g))]) from rfl]
  simp only [show List.lookup "data" [("data", Value.arr (c1HourlyBlock t g))]
      = some (Value.arr (c1HourlyBlock t g)) from rfl]
  rw [show c1HourlyBlock t g
      = (List.range 72).map (fun (i : ℕ) => Value.obj (c1Rec t g i)) from rfl]
  exact @mapOpt_map_some ℕ Value Record
    (fun x => match x with | Value.obj r => some r | _ => none)
    (fun (i : ℕ) => Value.obj (c1Rec t g i)) (c1Rec t g) (fun i => rfl) (List.range 72)


theorem forecast_daily_of (tzdb : String → Option TZ) (d : Record)
    (daily : List Record) (ddf : Frame) (tzname : String) (tz : TZ) (df : Frame)
    (hrecs : List Record) (h0 : Frame) (h2 : Frame) (r : Frame) (out : Frame)
    (hdaily : getDatablock d "daily" = some daily)
    (hddf : datablock_to_dataframe daily = some ddf)
    (htzname : List.lookup "timezone" d = some (Value.str tzname))
    (htz : tzdb tzname = some tz)
    (hconv : tz_convert ddf tz = some df)
    (hhk : containsKey d "hourly" = true)
    (hhrecs : getDatablock d "hourly" = some hrecs)
    (hh0 : hourly_to_dataframe hrecs = some h0)
    (hconv2 : tz_convert h0 tz = some h2)
    (hrs : resample_agg h2
      ([("temperature", AggOp.mean), ("solarGhi", AggOp.sum)].filter
        (fun a => (colNames h2).contains a.1)) = some r)
    (hjoin : joinFrames df (roundFrame2 r) = some out) :
    forecast_to_daily_dataframe tzdb d = some out := by
  unfold forecast_to_daily_dataframe
  simp only [hdaily, hddf, htzname, htz, hconv, hhk, if_true, hhrecs, hh0, hconv2,
    hrs, hjoin]

theorem c1_rsf (t g : ℕ → ℚ) : resample_agg
    { index := (21600 : ℚ) :: c1Tail,
      tz := some (constTZ (-21600)),
      cols := c1ColsMap t g }
    ([("temperature", AggOp.mean), ("solarGhi", AggOp.sum)].filter
      (fun a => (colNames
        { index := (21600 : ℚ) :: c1Tail,
          tz := some (constTZ (-21600)),
          cols := c1ColsMap t g }).contains a.1)) =
    some { index := [21600, 108000, 194400],
           tz := some (constTZ (-21600)),
           cols := [("temperature",
                      [some (Value.num (dayMean t 0)), some (Value.num (dayMean t 24)),
                       some (Value.num (dayMean t 48))]),
                    ("solarGhi",
                      [some (Value.num (daySum g 0)), some (Value.num (daySum g 24)),
                       some (Value.num (daySum g 48))])] } := by
  rw [show ([("temperature", AggOp.mean), ("solarGhi", AggOp.sum)].filter
      (fun a => (colNames
        { index := (21600 : ℚ) :: c1Tail,
          tz := some (constTZ (-21600)),
          cols := c1ColsMap t g }).contains a.1))
      = [("temperature", AggOp.mean), ("solarGhi", AggOp.sum)] from rfl]
  exact c1_rs t g

theorem c1_join (t g : ℕ → ℚ) : joinFrames
    { index := [21600, 108000, 194400], tz := some (constTZ (-21600)),
      cols := ([] : List (String × List (Option Value))) }
    (roundFrame2
      { index := [21600, 108000, 194400],
        tz := some (constTZ (-21600)),
        cols := [("temperature",
                   [some (Value.num (dayMean t 0)), some (Value.num (dayMean t 24)),
                    some (Value.num (dayMean t 48))]),
                 ("solarGhi",
                   [some (Value.num (daySum g 0)), some (Value.num (daySum g 24)),
                    some (Value.num (daySum g 48))])] }) =
    some { index := [21600, 108000, 194400],
           tz := some (constTZ (-21600)),
           cols := [("temperature",
                      [some (Value.num (round2 (dayMean t 0))),
                       some (Value.num (round2 (dayMean t 24))),
                       some (Value.num (round2 (dayMean t 48)))]),
                    ("solarGhi",
                      [some (Value.num (round2 (daySum g 0))),
                       some (Value.num (round2 (daySum g 24))),
                       some (Value.num (round2 (daySum g 48)))])] } := by
  rw [show roundFrame2
      { index := [21600, 108000, 194400],
        tz := some (constTZ (-21600)),
        cols := [("temperature",
                   [some (Value.num (dayMean t 0)), some (Value.num (dayMean t 24)),
                    some (Value.num (dayMean t 48))]),
                 ("solarGhi",
                   [some (Value.num (daySum g 0)), some (Value.num (daySum g 24)),
                    some (Value.num (daySum g 48))])] } =
      { index := [21600, 108000, 194400],
        tz := some (constTZ (-21600)),
        cols := [("temperature",
                   [some (Value.num (round2 (dayMean t 0))), some (Value.num (round2 (dayMean t 24))),
                    some (Value.num (round2 (dayMean t 48)))]),
                 ("solarGhi",
                   [some (Value.num (round2 (daySum g 0))), some (Value.num (round2 (daySum g 24))),
                    some (Value.num (round2 (daySum g 48)))])] } from rfl]
  rw [joinFrames_of_disjoint (by intro k hk; simp [colNames] at hk)]
  rw [joinRaw_nodup _ _ ((by decide : ([21600, 108000, 194400] : List ℚ).Nodup))
        (by intro c hc; simp at hc)]
  simp only [List.map_cons, List.map_nil]
  simp only [show idxOf? (21600 : ℚ) [21600, 108000, 194400] = some 0 from rfl,
             show idxOf? (108000 : ℚ) [21600, 108000, 194400] = some 1 from rfl,
             show idxOf? (194400 : ℚ) [21600, 108000, 194400] = some 2 from rfl]
  rfl

set_option maxHeartbeats 1000000 in
/-- C1: for the Chicago forecast (3 daily records at local midnights, 72
hourly records each carrying `temperature` and `solarGhi`),
`forecast_to_daily_dataframe` returns a 3-row frame indexed at the Chicago
local midnights, localized to America/Chicago, whose `temperature` column is
the per-day mean of the 24 hourly temperatures rounded to 2 decimals and
whose `solarGhi` column is the per-day sum of the hourly `solarGhi` values
rounded to 2 decimals. -/
theorem c1_daily_aggregation (t g : ℕ → ℚ) :
    forecast_to_daily_dataframe tzdbChicago (c1Forecast t g) =
      some { index := [21600, 108000, 194400],
             tz := some (constTZ (-21600)),
             cols := [("temperature",
                        [some (Value.num (round2 (dayMean t 0))),
                         some (Value.num (round2 (dayMean t 24))),
                         some (Value.num (round2 (dayMean t 48)))]),
                      ("solarGhi",
                        [some (Value.num (round2 (daySum g 0))),
                         some (Value.num (round2 (daySum g 24))),
                         some (Value.num (round2 (daySum g 48)))])] } :=
  forecast_daily_of tzdbChicago (c1Forecast t g)
    [[("time", Value.num 21600)], [("time", Value.num 108000)], [("time", Value.num 194400)]]
    { index := [21600, 108000, 194400], tz := some utcTZ,
      cols := ([] : List (String × List (Option Value))) }
    "America/Chicago" (constTZ (-21600))
    { index := [21600, 108000, 194400], tz := some (constTZ (-21600)),
      cols := ([] : List (String × List (Option Value))) }
    ((List.range 72).map (c1Rec t g))
    { index := (21600 : ℚ) :: c1Tail, tz := some utcTZ, cols := c1ColsMap t g }
    { index := (21600 : ℚ) :: c1Tail, tz := some (constTZ (-21600)), cols := c1ColsMap t g }
    { index := [21600, 108000, 194400], tz := some (constTZ (-21600)),
      cols := [("temperature",
                 [some (Value.num (dayMean t 0)), some (Value.num (dayMean t 24)),
                  some (Value.num (dayMean t 48))]),
               ("solarGhi",
                 [some (Value.num (daySum g 0)), some (Value.num (daySum g 24)),
                  some (Value.num (daySum g 48))])] }
    { index := [21600, 108000, 194400], tz := some (constTZ (-21600)),
      cols := [("temperature",
                 [some (Value.num (round2 (dayMean t 0))),
                  some (Value.num (round2 (dayMean t 24))),
                  some (Value.num (round2 (dayMean t 48)))]),
               ("solarGhi",
                 [some (Value.num (round2 (daySum g 0))),
                  some (Value.num (round2 (daySum g 24))),
                  some (Value.num (round2 (daySum g 48)))])] }
    rfl rfl rfl rfl rfl rfl (c1_hex t g) (c1_hh t g) rfl (c1_rsf t g) (c1_join t g)


end Darksky
